import Mathlib

/-!
# SolarSystem: the orbital update of `src/components/Home.jsx`

A shallow embedding of the scene construction (`planets`, `createPlanet`,
`createMoon`, `planetMeshes`) and of the per-frame callback `renderloop`.

The definitions work over any type `α` of numbers that has the arithmetic
operations, and the three library values the callback uses, `Math.sin`,
`Math.cos` and `Math.PI`, are a parameter `JSMath α`.  Properties of exact
arithmetic are stated over an arbitrary field (over `ℝ` where trigonometric
identities or numeric bounds are needed); properties of the numbers JavaScript
computes with are stated over `Binary64`, a model of IEEE 754 binary64 with
rounding to nearest.  A JavaScript object is a value carrying an `id` that is
drawn from a counter when the object is constructed, so that object identity can
be talked about.  A property access on `undefined` (an uncaught `TypeError`) is
the result `none`.
-/

namespace SolarSystem

/-! ## Data model -/

/-- The three components of a `THREE.Vector3` (used for `position` and `scale`). -/
structure Vector3 (α : Type) where
  x : α
  y : α
  z : α

/-- The three angles of a `THREE.Euler` (used for `rotation`). -/
structure Euler (α : Type) where
  x : α
  y : α
  z : α

/-- A material, identified by the texture file it maps. -/
structure Material where
  map : String
  deriving DecidableEq, Repr

/-- The library functions and constant read by the render loop. -/
structure JSMath (α : Type) where
  sin : α → α
  cos : α → α
  PI : α

/-- One entry of a planet's `moons` array. -/
structure MoonConfig (α : Type) where
  name : String
  radius : α
  distance : α
  speed : α
  color : Option Nat

/-- One entry of the `planets` array. -/
structure PlanetConfig (α : Type) where
  name : String
  radius : α
  distance : α
  speed : α
  material : Material
  moons : List (MoonConfig α)

/-- A `THREE.Mesh`: an object with an identity, a material, a local transform
and an ordered list of child objects.  The geometry is the one shared
`planetGeometry` for every mesh and is left out. -/
inductive Mesh (α : Type) where
  | mk (id : Nat) (material : Material) (scale : Vector3 α) (position : Vector3 α)
      (rotation : Euler α) (children : List (Mesh α)) : Mesh α

namespace Mesh

variable {α : Type}

def id : Mesh α → Nat
  | mk i _ _ _ _ _ => i

def material : Mesh α → Material
  | mk _ m _ _ _ _ => m

def scale : Mesh α → Vector3 α
  | mk _ _ s _ _ _ => s

def position : Mesh α → Vector3 α
  | mk _ _ _ p _ _ => p

def rotation : Mesh α → Euler α
  | mk _ _ _ _ r _ => r

def children : Mesh α → List (Mesh α)
  | mk _ _ _ _ _ c => c

/-- The assignment `mesh.rotation.y = v`. -/
def setRotationY (v : α) : Mesh α → Mesh α
  | mk i m s p r c => mk i m s p { r with y := v } c

/-- The assignment `mesh.position.x = v`. -/
def setPositionX (v : α) : Mesh α → Mesh α
  | mk i m s p r c => mk i m s { p with x := v } r c

/-- The assignment `mesh.position.z = v`. -/
def setPositionZ (v : α) : Mesh α → Mesh α
  | mk i m s p r c => mk i m s { p with z := v } r c

/-- The call `mesh.scale.setScalar(v)`: all three scale components become `v`. -/
def setScaleScalar (v : α) : Mesh α → Mesh α
  | mk i m _ p r c => mk i m ⟨v, v, v⟩ p r c

/-- The call `mesh.add(child)`: the child is appended to `children`. -/
def add : Mesh α → Mesh α → Mesh α
  | mk i m s p r c, child => mk i m s p r (c ++ [child])

/-- The assignment of a new `children` list, the net effect of a `forEach` over the
children that mutates each child in place. -/
def setChildren (c : List (Mesh α)) : Mesh α → Mesh α
  | mk i m s p r _ => mk i m s p r c

end Mesh

section Model

variable {α : Type} [Zero α] [One α] [NatCast α] [Add α] [Sub α] [Mul α] [Div α] [OfScientific α]

/-- The constructor call `new THREE.Mesh(planetGeometry, material)`: position and rotation
zero, scale one, no children.  The argument `id` is the identity of the new object. -/
def newMesh (id : Nat) (material : Material) : Mesh α :=
  Mesh.mk id material ⟨1, 1, 1⟩ ⟨0, 0, 0⟩ ⟨0, 0, 0⟩ []

/-- The call `THREE.MathUtils.degToRad(degrees)`, which is `degrees * (Math.PI / 180)`. -/
def degToRad (M : JSMath α) (degrees : α) : α :=
  degrees * (M.PI / 180)

/-! ## The configuration table -/

def sunMaterial : Material := ⟨"/textures/2k_sun.jpg"⟩
def mercuryMaterial : Material := ⟨"/textures/2k_mercury.jpg"⟩
def venusMaterial : Material := ⟨"/textures/2k_venus_surface.jpg"⟩
def earthMaterial : Material := ⟨"/textures/2k_earth_daymap.jpg"⟩
def marsMaterial : Material := ⟨"/textures/2k_mars.jpg"⟩
def moonMaterial : Material := ⟨"/textures/2k_moon.jpg"⟩

def mercury : PlanetConfig α :=
  { name := "Mercury", radius := 0.5, distance := 10, speed := 0.01,
    material := mercuryMaterial, moons := [] }

def venus : PlanetConfig α :=
  { name := "Venus", radius := 0.8, distance := 15, speed := 0.007,
    material := venusMaterial, moons := [] }

/-- The entry "Moon" of Earth's `moons`. -/
def moon : MoonConfig α :=
  { name := "Moon", radius := 0.3, distance := 3, speed := 0.015, color := none }

def earth : PlanetConfig α :=
  { name := "Earth", radius := 1, distance := 20, speed := 0.005,
    material := earthMaterial, moons := [moon] }

/-- The entry "Phobos" of Mars's `moons`. -/
def phobos : MoonConfig α :=
  { name := "Phobos", radius := 0.1, distance := 2, speed := 0.02, color := none }

/-- The entry "Deimos" of Mars's `moons`. -/
def deimos : MoonConfig α :=
  { name := "Deimos", radius := 0.2, distance := 3, speed := 0.015, color := some 0xffffff }

def mars : PlanetConfig α :=
  { name := "Mars", radius := 0.7, distance := 25, speed := 0.003,
    material := marsMaterial, moons := [phobos, deimos] }

/-- The array `planets`. -/
def planets : List (PlanetConfig α) := [mercury, venus, earth, mars]

/-! ## Scene construction -/

/-- The function `createPlanet`; `id` is the identity of the mesh it constructs. -/
def createPlanet (planet : PlanetConfig α) (id : Nat) : Mesh α :=
  let planetMesh : Mesh α := newMesh id planet.material
  let planetMesh := planetMesh.setScaleScalar planet.radius
  let planetMesh := planetMesh.setPositionX planet.distance
  planetMesh

/-- The function `createMoon`; `id` is the identity of the mesh it constructs. -/
def createMoon (moon : MoonConfig α) (id : Nat) : Mesh α :=
  let moonMesh : Mesh α := newMesh id moonMaterial
  let moonMesh := moonMesh.setScaleScalar moon.radius
  let moonMesh := moonMesh.setPositionX moon.distance
  moonMesh

/-- The loop `planet.moons.forEach((moon) => { planetMesh.add(createMoon(moon)) })`,
threading the counter of object identities. -/
def addMoons : List (MoonConfig α) → Mesh α → Nat → Mesh α × Nat
  | [], planetMesh, nextId => (planetMesh, nextId)
  | moon :: rest, planetMesh, nextId =>
      let moonMesh := createMoon moon nextId
      addMoons rest (planetMesh.add moonMesh) (nextId + 1)

/-- The expression `planets.map((planet) => { ... return planetMesh })` that defines
`planetMeshes`, threading the counter of object identities. -/
def buildPlanetMeshes : List (PlanetConfig α) → Nat → List (Mesh α) × Nat
  | [], nextId => ([], nextId)
  | planet :: rest, nextId =>
      let planetMesh := createPlanet planet nextId
      let (planetMesh, nextId) := addMoons planet.moons planetMesh (nextId + 1)
      let (restMeshes, nextId) := buildPlanetMeshes rest nextId
      (planetMesh :: restMeshes, nextId)

/-- The mutable state the render loop works on. -/
structure Scene (α : Type) where
  sun : Mesh α
  planetMeshes : List (Mesh α)
  previousTime : α

/-- The state when `renderer.setAnimationLoop(renderloop)` is reached: the sun (scaled by 5),
the planet meshes built from the table, and `previousTime = 0`. -/
def initScene (planets : List (PlanetConfig α)) : Scene α :=
  let sun : Mesh α := (newMesh 0 sunMaterial).setScaleScalar 5
  { sun := sun, planetMeshes := (buildPlanetMeshes planets 1).1, previousTime := 0 }

/-! ## The render loop -/

/-- The object a transform write goes to, named by the path the loop reaches it through:
`sun`, `planetMeshes[i]`, or `planetMeshes[i].children[j]`. -/
inductive Target where
  | sun : Target
  | planet (planetIndex : Nat) : Target
  | moon (planetIndex moonIndex : Nat) : Target
  deriving DecidableEq, Repr

/-- The transform component a write assigns. -/
inductive Component where
  | rotationY : Component
  | positionX : Component
  | positionZ : Component
  deriving DecidableEq, Repr

/-- One assignment to a transform component, as emitted by the loop. -/
structure Write (α : Type) where
  target : Target
  component : Component
  value : α

/-- A call `array.forEach((element, index) => ...)` whose callback mutates the element and may
throw: the elements are visited in order, with indices counted from `start`; the result is the
updated elements and the writes emitted, or `none` as soon as one callback throws. -/
def forEachIdx (f : Mesh α → Nat → Option (Mesh α × List (Write α))) :
    List (Mesh α) → Nat → Option (List (Mesh α) × List (Write α))
  | [], _ => some ([], [])
  | mesh :: rest, index =>
      match f mesh index with
      | none => none
      | some (mesh, writes) =>
          match forEachIdx f rest (index + 1) with
          | none => none
          | some (rest, restWrites) => some (mesh :: rest, writes ++ restWrites)

/-- The body of the inner callback `(moon, moonIndex) => { ... }` of `renderloop`. -/
def updateMoon (M : JSMath α) (planets : List (PlanetConfig α)) (planetIndex : Nat)
    (moon : Mesh α) (moonIndex : Nat) : Option (Mesh α × List (Write α)) :=
  match planets[planetIndex]? with
  | none => none
  | some planetConfig =>
      match planetConfig.moons[moonIndex]? with
      | none => none
      | some moonConfig =>
          let moon := moon.setRotationY (moon.rotation.y + moonConfig.speed)
          let w1 : Write α := ⟨.moon planetIndex moonIndex, .rotationY, moon.rotation.y⟩
          let moon := moon.setPositionX (M.sin moon.rotation.y * moonConfig.distance)
          let w2 : Write α := ⟨.moon planetIndex moonIndex, .positionX, moon.position.x⟩
          let moon := moon.setPositionZ (M.cos moon.rotation.y * moonConfig.distance)
          let w3 : Write α := ⟨.moon planetIndex moonIndex, .positionZ, moon.position.z⟩
          some (moon, [w1, w2, w3])

/-- The body of the outer callback `(planet, planetIndex) => { ... }` of `renderloop`. -/
def updatePlanet (M : JSMath α) (planets : List (PlanetConfig α))
    (planet : Mesh α) (planetIndex : Nat) : Option (Mesh α × List (Write α)) :=
  match planets[planetIndex]? with
  | none => none
  | some planetConfig =>
      let planet := planet.setRotationY (planet.rotation.y + planetConfig.speed)
      let w1 : Write α := ⟨.planet planetIndex, .rotationY, planet.rotation.y⟩
      let planet := planet.setPositionX (M.sin planet.rotation.y * planetConfig.distance)
      let w2 : Write α := ⟨.planet planetIndex, .positionX, planet.position.x⟩
      let planet := planet.setPositionZ (M.cos planet.rotation.y * planetConfig.distance)
      let w3 : Write α := ⟨.planet planetIndex, .positionZ, planet.position.z⟩
      match forEachIdx (updateMoon M planets planetIndex) planet.children 0 with
      | none => none
      | some (children, moonWrites) =>
          some (planet.setChildren children, [w1, w2, w3] ++ moonWrites)

/-- The function `renderloop`, with the clock reading `clock.getElapsedTime()` as the argument
`currentTime`.  It returns the new state and the transform writes in the order they were
made; `none` is an uncaught `TypeError`. -/
def renderloop (M : JSMath α) (planets : List (PlanetConfig α)) (currentTime : α)
    (s : Scene α) : Option (Scene α × List (Write α)) :=
  let delta := currentTime - s.previousTime
  let previousTime := currentTime
  let sun := s.sun.setRotationY (s.sun.rotation.y + delta * degToRad M 1 * 20)
  let w0 : Write α := ⟨.sun, .rotationY, sun.rotation.y⟩
  match forEachIdx (updatePlanet M planets) s.planetMeshes 0 with
  | none => none
  | some (planetMeshes, writes) =>
      some ({ sun := sun, planetMeshes := planetMeshes, previousTime := previousTime },
            w0 :: writes)

/-- The animation loop: `renderloop` is invoked once per frame, each time with the next clock
reading of the list. -/
def runFrames (M : JSMath α) (planets : List (PlanetConfig α)) :
    List α → Scene α → Option (Scene α)
  | [], s => some s
  | currentTime :: later, s =>
      match renderloop M planets currentTime s with
      | none => none
      | some (s, _) => runFrames M planets later s

/-! ## Predicates used to state the properties -/

/-- The meshes have the shape of the table: one mesh per planet and, under the mesh of a
planet, one child per moon of that planet. -/
def ShapeOK (planets : List (PlanetConfig α)) (meshes : List (Mesh α)) : Prop :=
  meshes.length = planets.length ∧
    ∀ (i : Nat) (p : PlanetConfig α) (m : Mesh α),
      planets[i]? = some p → meshes[i]? = some m → m.children.length = p.moons.length

/-- Every body of the table has its mesh (planet `i` is `meshes[i]`, its moon `j` is
`meshes[i].children[j]`), and `P distance speed mesh` holds of each body's configured distance
and speed and its mesh. -/
def AllBodies (planets : List (PlanetConfig α)) (meshes : List (Mesh α))
    (P : α → α → Mesh α → Prop) : Prop :=
  ∀ (i : Nat) (p : PlanetConfig α), planets[i]? = some p →
    ∃ m, meshes[i]? = some m ∧ P p.distance p.speed m ∧
      ∀ (j : Nat) (q : MoonConfig α), p.moons[j]? = some q →
        ∃ c, m.children[j]? = some c ∧ P q.distance q.speed c

/-- Every body of the table has a mesh before (`meshes`) and after (`meshes'`) at the same
place, and `R distance speed before after` holds of them. -/
def AllBodies₂ (planets : List (PlanetConfig α)) (meshes meshes' : List (Mesh α))
    (R : α → α → Mesh α → Mesh α → Prop) : Prop :=
  ∀ (i : Nat) (p : PlanetConfig α), planets[i]? = some p →
    ∃ m m', meshes[i]? = some m ∧ meshes'[i]? = some m' ∧ R p.distance p.speed m m' ∧
      ∀ (j : Nat) (q : MoonConfig α), p.moons[j]? = some q →
        ∃ c c', m.children[j]? = some c ∧ m'.children[j]? = some c' ∧
          R q.distance q.speed c c'

/-- The effect of one frame on one body with the given distance and speed: the angle
`rotation.y` grows by the speed, `position.x` and `position.z` are the sine and cosine of the
new angle times the distance, and nothing else of the body's own fields changes. -/
def BodyStep (M : JSMath α) (distance speed : α) (b b' : Mesh α) : Prop :=
  b'.id = b.id ∧ b'.material = b.material ∧ b'.scale = b.scale ∧
    b'.rotation = ⟨b.rotation.x, b.rotation.y + speed, b.rotation.z⟩ ∧
    b'.position = ⟨M.sin (b.rotation.y + speed) * distance, b.position.y,
      M.cos (b.rotation.y + speed) * distance⟩

/-- The effect of one frame with clock reading `t` on the whole state. -/
def FrameStep (M : JSMath α) (planets : List (PlanetConfig α)) (t : α) (s s' : Scene α) :
    Prop :=
  s'.previousTime = t ∧
    s'.sun = s.sun.setRotationY (s.sun.rotation.y + (t - s.previousTime) * degToRad M 1 * 20) ∧
    AllBodies₂ planets s.planetMeshes s'.planetMeshes (BodyStep M)

/-- The place of an object in the traversal order of the hierarchy: the sun first, then
planet `i` followed by its children in order, for `i` ascending. -/
def Target.rank : Target → Nat × Nat
  | .sun => (0, 0)
  | .planet i => (i + 1, 0)
  | .moon i j => (i + 1, j + 1)

/-- The object `a` comes no later than `b` in the traversal order (lexicographic order of the
ranks). -/
def Target.notAfter (a b : Target) : Prop :=
  a.rank.1 < b.rank.1 ∨ (a.rank.1 = b.rank.1 ∧ a.rank.2 ≤ b.rank.2)

/-- The three components a frame assigns on one object, in the order of the assignments. -/
def bodyWrites (target : Target) : List (Target × Component) :=
  [(target, .rotationY), (target, .positionX), (target, .positionZ)]

/-- The expected sequence of (object, component) pairs written in one frame over the given
meshes: the sun's rotation; then for each planet in list order its three components followed,
for each of its children in list order, by the child's three components. -/
def frameLayout (meshes : List (Mesh α)) : List (Target × Component) :=
  (Target.sun, Component.rotationY) ::
    meshes.enum.flatMap (fun im =>
      bodyWrites (.planet im.1) ++
        im.2.children.enum.flatMap (fun jc => bodyWrites (.moon im.1 jc.1)))

end Model

/-! ## JavaScript numbers

The definitions above work over any type of numbers with the arithmetic operations.  The
program runs on JavaScript Numbers, which are IEEE 754 binary64 values with every operation
rounded to nearest, ties to even. -/

/-- A JavaScript Number.  Every finite binary64 value is an integer multiple of `2 ^ (-1074)`;
`finite k` is the value `k * 2 ^ (-1074)`.  The two zeros `+0` and `-0`, which `===` does not
tell apart, are the one value `finite 0`. -/
inductive Binary64 where
  | finite (k : Int) : Binary64
  | inf (negative : Bool) : Binary64
  | nan : Binary64
  deriving DecidableEq

namespace Binary64

/-- Binary search for the position of the leading bit: with `i` rounds left, `m` the part of
the number still to be examined and `acc` the bits already counted. -/
def log2Aux : Nat → Nat → Nat → Nat
  | 0, _, acc => acc
  | i + 1, m, acc =>
      if 2 ^ 2 ^ i ≤ m then log2Aux i (m / 2 ^ 2 ^ i) (acc + 2 ^ i) else log2Aux i m acc

/-- The position of the leading bit of `n`, which is `⌊log₂ n⌋` for `0 < n < 2 ^ 4096`. -/
def floorLog2 (n : Nat) : Nat := log2Aux 12 n 0

/-- The binary64 value nearest to the non-negative rational `A / D`, given in units of
`2 ^ (-1074)`, with the sign `negative`: the quotient is cut to 53 significant bits (or to a
whole number of units, for subnormal results), rounded to nearest with ties to the even
significand, and a result of `2 ^ 1024` or more is an infinity. -/
def roundUnits (negative : Bool) (A D : Nat) : Binary64 :=
  let q0 := A / D
  let sh := floorLog2 q0 - 52
  let dv := D * 2 ^ sh
  let n := A / dv
  let rem := A % dv
  let n' := if 2 * rem < dv then n else if dv < 2 * rem then n + 1
            else if n % 2 = 0 then n else n + 1
  let k := n' * 2 ^ sh
  if 2 ^ 2098 ≤ k then inf negative else finite (if negative then -(k : Int) else (k : Int))

/-- Unary minus. -/
def neg : Binary64 → Binary64
  | finite k => finite (-k)
  | inf b => inf (!b)
  | nan => nan

/-- The operator `+` of JavaScript. -/
def add : Binary64 → Binary64 → Binary64
  | finite a, finite b => roundUnits (decide (a + b < 0)) (a + b).natAbs 1
  | finite _, inf b => inf b
  | inf a, finite _ => inf a
  | inf a, inf b => if a = b then inf a else nan
  | _, _ => nan

/-- The operator `*` of JavaScript. -/
def mul : Binary64 → Binary64 → Binary64
  | finite a, finite b =>
      roundUnits (xor (decide (a < 0)) (decide (b < 0))) (a.natAbs * b.natAbs) (2 ^ 1074)
  | finite a, inf b => if a = 0 then nan else inf (xor (decide (a < 0)) b)
  | inf a, finite b => if b = 0 then nan else inf (xor a (decide (b < 0)))
  | inf a, inf b => inf (xor a b)
  | _, _ => nan

/-- The operator `/` of JavaScript (a zero divisor is taken to be `+0`). -/
def div : Binary64 → Binary64 → Binary64
  | finite a, finite b =>
      if b = 0 then (if a = 0 then nan else inf (decide (a < 0)))
      else roundUnits (xor (decide (a < 0)) (decide (b < 0))) (a.natAbs * 2 ^ 1074) b.natAbs
  | finite _, inf _ => finite 0
  | inf a, finite b => inf (xor a (decide (b < 0)))
  | _, _ => nan

/-- The Number written as the natural number `n`. -/
def ofNat (n : Nat) : Binary64 := roundUnits false (n * 2 ^ 1074) 1

/-- The Number written as the decimal literal `mantissa * 10 ^ (± decimalExponent)`: the
nearest binary64 value. -/
def ofScientific (mantissa : Nat) (exponentSign : Bool) (decimalExponent : Nat) : Binary64 :=
  if exponentSign then roundUnits false (mantissa * 2 ^ 1074) (10 ^ decimalExponent)
  else roundUnits false (mantissa * 10 ^ decimalExponent * 2 ^ 1074) 1

/-- The rational number a finite Number stands for; `0` for the infinities and NaN. -/
def toRat : Binary64 → ℚ
  | finite k => (k : ℚ) / 2 ^ 1074
  | _ => 0

instance : Zero Binary64 := ⟨finite 0⟩

instance : One Binary64 := ⟨ofNat 1⟩

instance : NatCast Binary64 := ⟨ofNat⟩

instance : Add Binary64 := ⟨add⟩

instance : Sub Binary64 := ⟨fun a b => add a (neg b)⟩

instance : Mul Binary64 := ⟨mul⟩

instance : Div Binary64 := ⟨div⟩

instance : OfScientific Binary64 := ⟨ofScientific⟩

end Binary64

/-- The library values `Math.sin`, `Math.cos` and `Math.PI` on JavaScript Numbers.  By
ECMAScript the sine and the cosine of NaN, `+∞` and `-∞` are NaN.  On a finite argument they
are implementation-approximated finite values; these are the parameters `sinF` and `cosF`,
which take and return a number of units of `2 ^ (-1074)`.  `Math.PI` is 3.141592653589793. -/
def jsMath64 (sinF cosF : Int → Int) : JSMath Binary64 :=
  { sin := fun x =>
      match x with
      | .finite k => .finite (sinF k)
      | _ => .nan
    cos := fun x =>
      match x with
      | .finite k => .finite (cosF k)
      | _ => .nan
    PI := 3.141592653589793 }

/-- A table of one body at distance `0` with speed `1e308` and no moons. -/
def fastCentre : List (PlanetConfig Binary64) :=
  [{ name := "Centre", radius := 1, distance := 0, speed := 1e308,
     material := earthMaterial, moons := [] }]

/-! ## Basic facts about meshes and `forEach` -/

section MeshLemmas

variable {α : Type}

theorem setRotationY_eq (v : α) (m : Mesh α) :
    m.setRotationY v
      = Mesh.mk m.id m.material m.scale m.position ⟨m.rotation.x, v, m.rotation.z⟩ m.children := by
  cases m; rfl

theorem setPositionX_eq (v : α) (m : Mesh α) :
    m.setPositionX v
      = Mesh.mk m.id m.material m.scale ⟨v, m.position.y, m.position.z⟩ m.rotation m.children := by
  cases m; rfl

theorem setPositionZ_eq (v : α) (m : Mesh α) :
    m.setPositionZ v
      = Mesh.mk m.id m.material m.scale ⟨m.position.x, m.position.y, v⟩ m.rotation m.children := by
  cases m; rfl

theorem setScaleScalar_eq (v : α) (m : Mesh α) :
    m.setScaleScalar v
      = Mesh.mk m.id m.material ⟨v, v, v⟩ m.position m.rotation m.children := by
  cases m; rfl

theorem setChildren_eq (c : List (Mesh α)) (m : Mesh α) :
    m.setChildren c = Mesh.mk m.id m.material m.scale m.position m.rotation c := by
  cases m; rfl

theorem add_eq (child : Mesh α) (m : Mesh α) :
    m.add child
      = Mesh.mk m.id m.material m.scale m.position m.rotation (m.children ++ [child]) := by
  cases m; rfl

@[simp] theorem id_mk (i : Nat) (mt : Material) (s p : Vector3 α) (r : Euler α)
    (c : List (Mesh α)) : (Mesh.mk i mt s p r c).id = i := rfl

@[simp] theorem material_mk (i : Nat) (mt : Material) (s p : Vector3 α) (r : Euler α)
    (c : List (Mesh α)) : (Mesh.mk i mt s p r c).material = mt := rfl

@[simp] theorem scale_mk (i : Nat) (mt : Material) (s p : Vector3 α) (r : Euler α)
    (c : List (Mesh α)) : (Mesh.mk i mt s p r c).scale = s := rfl

@[simp] theorem position_mk (i : Nat) (mt : Material) (s p : Vector3 α) (r : Euler α)
    (c : List (Mesh α)) : (Mesh.mk i mt s p r c).position = p := rfl

@[simp] theorem rotation_mk (i : Nat) (mt : Material) (s p : Vector3 α) (r : Euler α)
    (c : List (Mesh α)) : (Mesh.mk i mt s p r c).rotation = r := rfl

@[simp] theorem children_mk (i : Nat) (mt : Material) (s p : Vector3 α) (r : Euler α)
    (c : List (Mesh α)) : (Mesh.mk i mt s p r c).children = c := rfl

/-- What `forEachIdx` succeeds on: every callback invocation returns. -/
theorem forEachIdx_some (f : Mesh α → Nat → Option (Mesh α × List (Write α))) :
    ∀ (ms : List (Mesh α)) (k : Nat),
      (∀ i m, ms[i]? = some m → ∃ r, f m (k + i) = some r) →
      ∃ r, forEachIdx f ms k = some r := by
  intro ms
  induction ms with
  | nil => intro k _; exact ⟨_, rfl⟩
  | cons m rest ih =>
    intro k h
    obtain ⟨⟨m', w⟩, hm⟩ := h 0 m (by simp)
    have hrest : ∀ i x, rest[i]? = some x → ∃ r, f x (k + 1 + i) = some r := by
      intro i x hx
      have := h (i + 1) x (by simpa using hx)
      simpa [Nat.add_assoc, Nat.add_comm 1 i] using this
    obtain ⟨⟨rest', ws⟩, hr⟩ := ih (k + 1) hrest
    refine ⟨(m' :: rest', w ++ ws), ?_⟩
    simp only [Nat.add_zero] at hm
    simp [forEachIdx, hm, hr]

/-- What a successful `forEachIdx` returns: element `i` of the result is the callback's
result on element `i`, called with index `k + i`. -/
theorem forEachIdx_spec (f : Mesh α → Nat → Option (Mesh α × List (Write α))) :
    ∀ (ms : List (Mesh α)) (k : Nat) (ms' : List (Mesh α)) (ws : List (Write α)),
      forEachIdx f ms k = some (ms', ws) →
      ms'.length = ms.length ∧
        ∀ i m, ms[i]? = some m → ∃ m' w, f m (k + i) = some (m', w) ∧ ms'[i]? = some m' := by
  intro ms
  induction ms with
  | nil =>
    intro k ms' ws h
    simp only [forEachIdx, Option.some.injEq, Prod.mk.injEq] at h
    obtain ⟨rfl, rfl⟩ := h
    simp
  | cons m rest ih =>
    intro k ms' ws h
    unfold forEachIdx at h
    cases hm : f m k with
    | none => simp [hm] at h
    | some r =>
      obtain ⟨m1, w1⟩ := r
      cases hr : forEachIdx f rest (k + 1) with
      | none => simp [hm, hr] at h
      | some r2 =>
        obtain ⟨rest', ws'⟩ := r2
        simp only [hm, hr, Option.some.injEq, Prod.mk.injEq] at h
        obtain ⟨rfl, rfl⟩ := h
        obtain ⟨hlen, hpt⟩ := ih (k + 1) rest' ws' hr
        refine ⟨by simp [hlen], ?_⟩
        intro i x hx
        cases i with
        | zero =>
          simp only [List.getElem?_cons_zero, Option.some.injEq] at hx
          subst hx
          exact ⟨m1, w1, by simpa using hm, by simp⟩
        | succ i =>
          simp only [List.getElem?_cons_succ] at hx
          obtain ⟨m', w, hf, hg⟩ := hpt i x hx
          refine ⟨m', w, ?_, by simpa using hg⟩
          simpa [Nat.add_assoc, Nat.add_comm 1 i] using hf

/-- The writes of a successful `forEachIdx` are the callbacks' writes, concatenated in
element order. -/
theorem forEachIdx_writes {β : Type} (f : Mesh α → Nat → Option (Mesh α × List (Write α)))
    (key : Write α → β) (g : Nat → Mesh α → List β)
    (hf : ∀ m i r, f m i = some r → r.2.map key = g i m) :
    ∀ (ms : List (Mesh α)) (k : Nat) (ms' : List (Mesh α)) (ws : List (Write α)),
      forEachIdx f ms k = some (ms', ws) →
      ws.map key = (ms.enumFrom k).flatMap (fun im => g im.1 im.2) := by
  intro ms
  induction ms with
  | nil =>
    intro k ms' ws h
    simp only [forEachIdx, Option.some.injEq, Prod.mk.injEq] at h
    obtain ⟨rfl, rfl⟩ := h
    simp
  | cons m rest ih =>
    intro k ms' ws h
    unfold forEachIdx at h
    cases hm : f m k with
    | none => simp [hm] at h
    | some r =>
      obtain ⟨m1, w1⟩ := r
      cases hr : forEachIdx f rest (k + 1) with
      | none => simp [hm, hr] at h
      | some r2 =>
        obtain ⟨rest', ws'⟩ := r2
        simp only [hm, hr, Option.some.injEq, Prod.mk.injEq] at h
        obtain ⟨rfl, rfl⟩ := h
        have h1 := hf m k _ hm
        have h2 := ih (k + 1) rest' ws' hr
        simp only at h1
        simp [List.enumFrom_cons, List.flatMap_cons, h1, h2]

end MeshLemmas

/-! ## One frame -/

section BodyLemmas

variable {α : Type} [Add α] [Mul α]

/-- The inner callback on a moon whose configuration record exists. -/
theorem updateMoon_eq (M : JSMath α) (planets : List (PlanetConfig α)) (i j : Nat)
    (p : PlanetConfig α) (q : MoonConfig α) (c : Mesh α)
    (hp : planets[i]? = some p) (hq : p.moons[j]? = some q) :
    updateMoon M planets i c j
      = some (Mesh.mk c.id c.material c.scale
          ⟨M.sin (c.rotation.y + q.speed) * q.distance, c.position.y,
            M.cos (c.rotation.y + q.speed) * q.distance⟩
          ⟨c.rotation.x, c.rotation.y + q.speed, c.rotation.z⟩ c.children,
          [⟨.moon i j, .rotationY, c.rotation.y + q.speed⟩,
           ⟨.moon i j, .positionX, M.sin (c.rotation.y + q.speed) * q.distance⟩,
           ⟨.moon i j, .positionZ, M.cos (c.rotation.y + q.speed) * q.distance⟩]) := by
  simp [updateMoon, hp, hq, setRotationY_eq, setPositionX_eq, setPositionZ_eq]

/-- The writes of the inner callback, whenever it returns. -/
theorem updateMoon_writes (M : JSMath α) (planets : List (PlanetConfig α)) (i : Nat)
    (c : Mesh α) (j : Nat) (r : Mesh α × List (Write α))
    (hr : updateMoon M planets i c j = some r) :
    (r.2.map fun w => (w.target, w.component)) = bodyWrites (.moon i j) := by
  unfold updateMoon at hr
  cases hp : planets[i]? with
  | none => simp [hp] at hr
  | some p =>
    simp only [hp] at hr
    cases hq : p.moons[j]? with
    | none => simp [hq] at hr
    | some q =>
      simp only [hq, Option.some.injEq] at hr
      subst hr
      simp [bodyWrites]

/-- The inner `forEach` over the children of a planet whose children match its moons. -/
theorem forEachIdx_updateMoon (M : JSMath α) (planets : List (PlanetConfig α)) (i : Nat)
    (p : PlanetConfig α) (cs : List (Mesh α))
    (hp : planets[i]? = some p) (hlen : cs.length = p.moons.length) :
    ∃ cs' ws, forEachIdx (updateMoon M planets i) cs 0 = some (cs', ws) ∧
      cs'.length = cs.length ∧
      ∀ (j : Nat) (q : MoonConfig α), p.moons[j]? = some q →
        ∃ c c', cs[j]? = some c ∧ cs'[j]? = some c' ∧ BodyStep M q.distance q.speed c c' := by
  have hsome : ∀ j c, cs[j]? = some c → ∃ r, updateMoon M planets i c (0 + j) = some r := by
    intro j c hc
    have hj : j < p.moons.length := by
      rw [← hlen]; exact (List.getElem?_eq_some.mp hc).1
    have hq : p.moons[j]? = some p.moons[j] := List.getElem?_eq_getElem hj
    exact ⟨_, by simpa using updateMoon_eq M planets i j p _ c hp hq⟩
  obtain ⟨⟨cs', ws⟩, hrun⟩ := forEachIdx_some _ cs 0 hsome
  obtain ⟨hl, hpt⟩ := forEachIdx_spec _ cs 0 cs' ws hrun
  refine ⟨cs', ws, hrun, hl, ?_⟩
  intro j q hq
  have hj : j < cs.length := by
    rw [hlen]; exact (List.getElem?_eq_some.mp hq).1
  have hc : cs[j]? = some cs[j] := List.getElem?_eq_getElem hj
  obtain ⟨c', w, hf, hc'⟩ := hpt j cs[j] hc
  rw [Nat.zero_add, updateMoon_eq M planets i j p q cs[j] hp hq] at hf
  simp only [Option.some.injEq, Prod.mk.injEq] at hf
  obtain ⟨rfl, -⟩ := hf
  exact ⟨cs[j], _, hc, hc', by simp [BodyStep]⟩

/-- The writes of the outer callback, whenever it returns. -/
theorem updatePlanet_writes (M : JSMath α) (planets : List (PlanetConfig α))
    (m : Mesh α) (i : Nat) (r : Mesh α × List (Write α))
    (hr : updatePlanet M planets m i = some r) :
    (r.2.map fun w => (w.target, w.component))
      = bodyWrites (.planet i)
          ++ m.children.enum.flatMap (fun jc => bodyWrites (.moon i jc.1)) := by
  unfold updatePlanet at hr
  cases hp : planets[i]? with
  | none => simp [hp] at hr
  | some p =>
    simp only [hp] at hr
    cases hrun : forEachIdx (updateMoon M planets i) m.children 0 with
    | none => simp [setRotationY_eq, setPositionX_eq, setPositionZ_eq, hrun] at hr
    | some r' =>
      obtain ⟨cs', ws⟩ := r'
      have hw := forEachIdx_writes (updateMoon M planets i)
        (fun w => (w.target, w.component)) (fun j _ => bodyWrites (.moon i j))
        (fun c j r h => updateMoon_writes M planets i c j r h) m.children 0 cs' ws hrun
      simp only [setRotationY_eq, setPositionX_eq, setPositionZ_eq, children_mk, hrun,
        Option.some.injEq] at hr
      subst hr
      simp [bodyWrites, List.enum, hw]

/-- The outer callback on a planet whose configuration record exists and whose children
match its moons. -/
theorem updatePlanet_spec (M : JSMath α) (planets : List (PlanetConfig α)) (i : Nat)
    (p : PlanetConfig α) (m : Mesh α)
    (hp : planets[i]? = some p) (hlen : m.children.length = p.moons.length) :
    ∃ m' ws, updatePlanet M planets m i = some (m', ws) ∧
      BodyStep M p.distance p.speed m m' ∧
      m'.children.length = m.children.length ∧
      ∀ (j : Nat) (q : MoonConfig α), p.moons[j]? = some q →
        ∃ c c', m.children[j]? = some c ∧ m'.children[j]? = some c' ∧
          BodyStep M q.distance q.speed c c' := by
  obtain ⟨cs', ws, hrun, hl, hpt⟩ := forEachIdx_updateMoon M planets i p m.children hp hlen
  have heq : updatePlanet M planets m i
      = some (Mesh.mk m.id m.material m.scale
          ⟨M.sin (m.rotation.y + p.speed) * p.distance, m.position.y,
            M.cos (m.rotation.y + p.speed) * p.distance⟩
          ⟨m.rotation.x, m.rotation.y + p.speed, m.rotation.z⟩ cs',
          [⟨.planet i, .rotationY, m.rotation.y + p.speed⟩,
           ⟨.planet i, .positionX, M.sin (m.rotation.y + p.speed) * p.distance⟩,
           ⟨.planet i, .positionZ, M.cos (m.rotation.y + p.speed) * p.distance⟩] ++ ws) := by
    simp [updatePlanet, hp, setRotationY_eq, setPositionX_eq, setPositionZ_eq, setChildren_eq,
      hrun]
  refine ⟨_, _, heq, ?_, ?_, ?_⟩
  · simp [BodyStep]
  · simpa using hl
  · simpa using hpt

/-- The outer `forEach` over meshes that have the shape of the table. -/
theorem forEachIdx_updatePlanet (M : JSMath α) (planets : List (PlanetConfig α))
    (ms : List (Mesh α)) (h : ShapeOK planets ms) :
    ∃ ms' ws, forEachIdx (updatePlanet M planets) ms 0 = some (ms', ws) ∧
      ShapeOK planets ms' ∧ AllBodies₂ planets ms ms' (BodyStep M) := by
  obtain ⟨hlen, hch⟩ := h
  have key : ∀ i m, ms[i]? = some m → ∃ p, planets[i]? = some p ∧
      ∃ m' w, updatePlanet M planets m i = some (m', w) ∧
        BodyStep M p.distance p.speed m m' ∧ m'.children.length = m.children.length ∧
        ∀ (j : Nat) (q : MoonConfig α), p.moons[j]? = some q →
          ∃ c c', m.children[j]? = some c ∧ m'.children[j]? = some c' ∧
            BodyStep M q.distance q.speed c c' := by
    intro i m hm
    have hi : i < planets.length := by
      rw [← hlen]; exact (List.getElem?_eq_some.mp hm).1
    have hp : planets[i]? = some planets[i] := List.getElem?_eq_getElem hi
    exact ⟨planets[i], hp, updatePlanet_spec M planets i _ m hp (hch i _ m hp hm)⟩
  have hsome : ∀ i m, ms[i]? = some m → ∃ r, updatePlanet M planets m (0 + i) = some r := by
    intro i m hm
    obtain ⟨p, -, m', w, hu, -⟩ := key i m hm
    exact ⟨_, by simpa using hu⟩
  obtain ⟨⟨ms', ws⟩, hrun⟩ := forEachIdx_some _ ms 0 hsome
  obtain ⟨hl, hpt⟩ := forEachIdx_spec _ ms 0 ms' ws hrun
  have both : ∀ (i : Nat) (p : PlanetConfig α), planets[i]? = some p →
      ∃ m m', ms[i]? = some m ∧ ms'[i]? = some m' ∧
        BodyStep M p.distance p.speed m m' ∧ m'.children.length = m.children.length ∧
        ∀ (j : Nat) (q : MoonConfig α), p.moons[j]? = some q →
          ∃ c c', m.children[j]? = some c ∧ m'.children[j]? = some c' ∧
            BodyStep M q.distance q.speed c c' := by
    intro i p hp
    have hi : i < ms.length := by
      rw [hlen]; exact (List.getElem?_eq_some.mp hp).1
    have hm : ms[i]? = some ms[i] := List.getElem?_eq_getElem hi
    obtain ⟨p', hp', m', w, hu, hstep, hcl, hmoons⟩ := key i ms[i] hm
    obtain ⟨m'', w', hu', hget⟩ := hpt i ms[i] hm
    rw [Nat.zero_add, hu] at hu'
    simp only [Option.some.injEq, Prod.mk.injEq] at hu'
    obtain ⟨rfl, -⟩ := hu'
    rw [hp] at hp'
    simp only [Option.some.injEq] at hp'
    subst hp'
    exact ⟨ms[i], m', hm, hget, hstep, hcl, hmoons⟩
  refine ⟨ms', ws, hrun, ⟨by rw [hl, hlen], ?_⟩, ?_⟩
  · intro i p m' hp hm'
    obtain ⟨m, m'', hm, hm'', -, hcl, -⟩ := both i p hp
    rw [hm'] at hm''
    simp only [Option.some.injEq] at hm''
    subst hm''
    rw [hcl]
    exact hch i p m hp hm
  · intro i p hp
    obtain ⟨m, m', hm, hm', hstep, -, hmoons⟩ := both i p hp
    exact ⟨m, m', hm, hm', hstep, hmoons⟩

end BodyLemmas

section FrameLemmas

variable {α : Type} [One α] [NatCast α] [Add α] [Sub α] [Mul α] [Div α]

/-- One frame on a state whose meshes have the shape of the table: `renderloop` returns,
the shape is kept, and the new state is the old one stepped. -/
theorem renderloop_step (M : JSMath α) (planets : List (PlanetConfig α)) (t : α)
    (s : Scene α) (h : ShapeOK planets s.planetMeshes) :
    ∃ s' ws, renderloop M planets t s = some (s', ws) ∧
      ShapeOK planets s'.planetMeshes ∧ FrameStep M planets t s s' := by
  obtain ⟨ms', ws, hrun, hshape, hstep⟩ := forEachIdx_updatePlanet M planets s.planetMeshes h
  have heq : renderloop M planets t s
      = some ({ sun := s.sun.setRotationY
                  (s.sun.rotation.y + (t - s.previousTime) * degToRad M 1 * 20),
                planetMeshes := ms', previousTime := t },
              ⟨.sun, .rotationY, s.sun.rotation.y + (t - s.previousTime) * degToRad M 1 * 20⟩
                :: ws) := by
    simp [renderloop, hrun, setRotationY_eq]
  exact ⟨_, _, heq, hshape, rfl, rfl, hstep⟩

/-- The targets and components of the writes of one frame, whenever `renderloop` returns. -/
theorem renderloop_writes (M : JSMath α) (planets : List (PlanetConfig α)) (t : α)
    (s s' : Scene α) (ws : List (Write α)) (h : renderloop M planets t s = some (s', ws)) :
    (ws.map fun w => (w.target, w.component)) = frameLayout s.planetMeshes := by
  unfold renderloop at h
  cases hrun : forEachIdx (updatePlanet M planets) s.planetMeshes 0 with
  | none => simp [hrun] at h
  | some r =>
    obtain ⟨ms', ws'⟩ := r
    have hw := forEachIdx_writes (updatePlanet M planets)
      (fun w => (w.target, w.component))
      (fun i m => bodyWrites (.planet i)
        ++ m.children.enum.flatMap (fun jc => bodyWrites (.moon i jc.1)))
      (fun m i r h => updatePlanet_writes M planets m i r h) s.planetMeshes 0 ms' ws' hrun
    simp only [hrun, Option.some.injEq, Prod.mk.injEq] at h
    obtain ⟨-, rfl⟩ := h
    simp [frameLayout, List.enum, hw]

end FrameLemmas

/-! ## Scene construction -/

section CreateLemmas

variable {α : Type} [Zero α] [One α]

theorem createPlanet_eq (p : PlanetConfig α) (id : Nat) :
    createPlanet p id
      = Mesh.mk id p.material ⟨p.radius, p.radius, p.radius⟩ ⟨p.distance, 0, 0⟩ ⟨0, 0, 0⟩ [] := by
  simp [createPlanet, newMesh, setScaleScalar_eq, setPositionX_eq]

theorem createMoon_eq (q : MoonConfig α) (id : Nat) :
    createMoon q id
      = Mesh.mk id moonMaterial ⟨q.radius, q.radius, q.radius⟩ ⟨q.distance, 0, 0⟩ ⟨0, 0, 0⟩
          [] := by
  simp [createMoon, newMesh, setScaleScalar_eq, setPositionX_eq]

/-- The loop that adds the moons appends one new mesh per moon, in order, and uses one
identity per moon. -/
theorem addMoons_eq : ∀ (moons : List (MoonConfig α)) (pm : Mesh α) (n : Nat),
    addMoons moons pm n
      = (pm.setChildren (pm.children ++ (moons.enumFrom n).map (fun iq => createMoon iq.2 iq.1)),
         n + moons.length) := by
  intro moons
  induction moons with
  | nil => intro pm n; cases pm; simp [addMoons, Mesh.setChildren, Mesh.children]
  | cons q rest ih =>
    intro pm n
    rw [addMoons, ih]
    simp [add_eq, setChildren_eq, List.enumFrom_cons, Nat.add_assoc, Nat.add_comm 1]

/-- What `planetMeshes` holds when built from a table: mesh `i` is the one `createPlanet` made
from `planets[i]`, and its child `j` is the one `createMoon` made from `planets[i].moons[j]`. -/
theorem buildPlanetMeshes_spec : ∀ (planets : List (PlanetConfig α)) (n : Nat),
    (buildPlanetMeshes planets n).1.length = planets.length ∧
      ∀ (i : Nat) (p : PlanetConfig α), planets[i]? = some p →
        ∃ m id, (buildPlanetMeshes planets n).1[i]? = some m ∧
          m.setChildren [] = createPlanet p id ∧
          m.children.length = p.moons.length ∧
          ∀ (j : Nat) (q : MoonConfig α), p.moons[j]? = some q →
            ∃ id', m.children[j]? = some (createMoon q id') := by
  intro planets
  induction planets with
  | nil => intro n; simp [buildPlanetMeshes]
  | cons p0 rest ih =>
    intro n
    have hb : buildPlanetMeshes (p0 :: rest) n
        = ((createPlanet p0 n).setChildren
              ((p0.moons.enumFrom (n + 1)).map (fun iq => createMoon iq.2 iq.1))
            :: (buildPlanetMeshes rest (n + 1 + p0.moons.length)).1,
           (buildPlanetMeshes rest (n + 1 + p0.moons.length)).2) := by
      simp [buildPlanetMeshes, addMoons_eq, createPlanet_eq, setChildren_eq]
    obtain ⟨hlen, hpt⟩ := ih (n + 1 + p0.moons.length)
    rw [hb]
    refine ⟨by simp [hlen], ?_⟩
    intro i p hp
    cases i with
    | zero =>
      simp only [List.getElem?_cons_zero, Option.some.injEq] at hp
      subst hp
      refine ⟨(createPlanet p0 n).setChildren
          ((p0.moons.enumFrom (n + 1)).map (fun iq => createMoon iq.2 iq.1)), n, by simp,
        by simp [setChildren_eq, createPlanet_eq], by simp [setChildren_eq], ?_⟩
      intro j q hq
      refine ⟨n + 1 + j, ?_⟩
      simp [setChildren_eq, List.getElem?_map, List.getElem?_enumFrom, hq]
    | succ i =>
      simp only [List.getElem?_cons_succ] at hp
      obtain ⟨m, id, hm, h1, h2, h3⟩ := hpt i p hp
      exact ⟨m, id, by simpa using hm, h1, h2, h3⟩

end CreateLemmas

section BuildLemmas

variable {α : Type} [Zero α] [One α] [NatCast α]

/-- The meshes built from a table have the shape of the table. -/
theorem shapeOK_initScene (planets : List (PlanetConfig α)) :
    ShapeOK planets (initScene planets).planetMeshes := by
  obtain ⟨hlen, hpt⟩ := buildPlanetMeshes_spec planets 1
  refine ⟨hlen, ?_⟩
  intro i p m hp hm
  obtain ⟨m', id, hm', -, hl, -⟩ := hpt i p hp
  have : (initScene planets).planetMeshes[i]? = some m' := hm'
  rw [hm] at this
  simp only [Option.some.injEq] at this
  subst this
  exact hl

/-- In the state built from a table every body is at angle zero and at `(distance, 0, 0)`. -/
theorem allBodies_initScene (planets : List (PlanetConfig α)) :
    AllBodies planets (initScene planets).planetMeshes
      (fun d _ b => b.rotation = ⟨0, 0, 0⟩ ∧ b.position = ⟨d, 0, 0⟩) := by
  obtain ⟨-, hpt⟩ := buildPlanetMeshes_spec planets 1
  intro i p hp
  obtain ⟨m, id, hm, hc, -, hmoons⟩ := hpt i p hp
  refine ⟨m, hm, ?_, ?_⟩
  · rw [createPlanet_eq, setChildren_eq] at hc
    simp only [Mesh.mk.injEq] at hc
    obtain ⟨-, -, -, h1, h2, -⟩ := hc
    exact ⟨h2, h1⟩
  · intro j q hq
    obtain ⟨id', hc'⟩ := hmoons j q hq
    exact ⟨_, hc', by simp [createMoon_eq]⟩

end BuildLemmas

/-! ## Any number of frames -/

section BodiesLemmas

variable {α : Type}

theorem allBodies_mono (planets : List (PlanetConfig α)) (ms : List (Mesh α))
    (P Q : α → α → Mesh α → Prop) (h : AllBodies planets ms P)
    (hPQ : ∀ d sp b, P d sp b → Q d sp b) : AllBodies planets ms Q := by
  intro i p hp
  obtain ⟨m, hm, hP, hmoons⟩ := h i p hp
  refine ⟨m, hm, hPQ _ _ _ hP, ?_⟩
  intro j q hq
  obtain ⟨c, hc, hPc⟩ := hmoons j q hq
  exact ⟨c, hc, hPQ _ _ _ hPc⟩

theorem allBodies₂_mono (planets : List (PlanetConfig α)) (ms ms' : List (Mesh α))
    (R R' : α → α → Mesh α → Mesh α → Prop) (h : AllBodies₂ planets ms ms' R)
    (hRR : ∀ d sp b b', R d sp b b' → R' d sp b b') : AllBodies₂ planets ms ms' R' := by
  intro i p hp
  obtain ⟨m, m', hm, hm', hR, hmoons⟩ := h i p hp
  refine ⟨m, m', hm, hm', hRR _ _ _ _ hR, ?_⟩
  intro j q hq
  obtain ⟨c, c', hc, hc', hRc⟩ := hmoons j q hq
  exact ⟨c, c', hc, hc', hRR _ _ _ _ hRc⟩

/-- A property of every body before a step, carried across the step. -/
theorem allBodies_step (planets : List (PlanetConfig α)) (ms ms' : List (Mesh α))
    (P Q : α → α → Mesh α → Prop) (R : α → α → Mesh α → Mesh α → Prop)
    (h2 : AllBodies₂ planets ms ms' R) (h1 : AllBodies planets ms P)
    (hPQ : ∀ d sp b b', R d sp b b' → P d sp b → Q d sp b') : AllBodies planets ms' Q := by
  intro i p hp
  obtain ⟨m, m', hm, hm', hR, hmoons⟩ := h2 i p hp
  obtain ⟨m0, hm0, hP, hmoons0⟩ := h1 i p hp
  rw [hm] at hm0
  simp only [Option.some.injEq] at hm0
  subst hm0
  refine ⟨m', hm', hPQ _ _ _ _ hR hP, ?_⟩
  intro j q hq
  obtain ⟨c, c', hc, hc', hRc⟩ := hmoons j q hq
  obtain ⟨c0, hc0, hPc⟩ := hmoons0 j q hq
  rw [hc] at hc0
  simp only [Option.some.injEq] at hc0
  subst hc0
  exact ⟨c', hc', hPQ _ _ _ _ hRc hPc⟩

/-- A relation to a fixed earlier list of meshes, carried across a step. -/
theorem allBodies₂_step (planets : List (PlanetConfig α)) (ms0 ms ms' : List (Mesh α))
    (R0 R R' : α → α → Mesh α → Mesh α → Prop)
    (h2 : AllBodies₂ planets ms ms' R) (h1 : AllBodies₂ planets ms0 ms R0)
    (hRR : ∀ d sp a b b', R d sp b b' → R0 d sp a b → R' d sp a b') :
    AllBodies₂ planets ms0 ms' R' := by
  intro i p hp
  obtain ⟨m, m', hm, hm', hR, hmoons⟩ := h2 i p hp
  obtain ⟨a, m0, ha, hm0, hR0, hmoons0⟩ := h1 i p hp
  rw [hm] at hm0
  simp only [Option.some.injEq] at hm0
  subst hm0
  refine ⟨a, m', ha, hm', hRR _ _ _ _ _ hR hR0, ?_⟩
  intro j q hq
  obtain ⟨c, c', hc, hc', hRc⟩ := hmoons j q hq
  obtain ⟨e, c0, he, hc0, hR0c⟩ := hmoons0 j q hq
  rw [hc] at hc0
  simp only [Option.some.injEq] at hc0
  subst hc0
  exact ⟨e, c', he, hc', hRR _ _ _ _ _ hRc hR0c⟩

end BodiesLemmas

section RunLemmas

variable {α : Type} [One α] [NatCast α] [Add α] [Sub α] [Mul α] [Div α]

/-- Running the frames of `ts` and then one more frame. -/
theorem runFrames_append_one (M : JSMath α) (planets : List (PlanetConfig α)) (t : α) :
    ∀ (ts : List α) (s s1 s2 : Scene α) (ws : List (Write α)),
      runFrames M planets ts s = some s1 → renderloop M planets t s1 = some (s2, ws) →
      runFrames M planets (ts ++ [t]) s = some s2 := by
  intro ts
  induction ts with
  | nil =>
    intro s s1 s2 ws h1 h2
    simp only [runFrames, Option.some.injEq] at h1
    subst h1
    simp [runFrames, h2]
  | cons t0 rest ih =>
    intro s s1 s2 ws h1 h2
    simp only [runFrames, List.cons_append] at h1 ⊢
    cases hr : renderloop M planets t0 s with
    | none => simp [hr] at h1
    | some r =>
      obtain ⟨s', w'⟩ := r
      simp only [hr] at h1 ⊢
      exact ih s' s1 s2 ws h1 h2

/-- Invariant rule for the animation loop: from a state that has the shape of the table the
loop returns after any list of clock readings, the shape is kept, and a property `P` of the
readings consumed and the state that every frame carries forward holds at the end. -/
theorem runFrames_invariant (M : JSMath α) (planets : List (PlanetConfig α))
    (P : List α → Scene α → Prop)
    (hstep : ∀ pre s t s', ShapeOK planets s.planetMeshes → P pre s →
      FrameStep M planets t s s' → P (pre ++ [t]) s') :
    ∀ (ts pre : List α) (s : Scene α), ShapeOK planets s.planetMeshes → P pre s →
      ∃ s', runFrames M planets ts s = some s' ∧ ShapeOK planets s'.planetMeshes ∧
        P (pre ++ ts) s' := by
  intro ts
  induction ts with
  | nil => intro pre s hs hP; exact ⟨s, rfl, hs, by simpa using hP⟩
  | cons t rest ih =>
    intro pre s hs hP
    obtain ⟨s1, ws, hr, hs1, hf⟩ := renderloop_step M planets t s hs
    obtain ⟨s2, hrun, hs2, hP2⟩ := ih (pre ++ [t]) s1 hs1 (hstep pre s t s1 hs hP hf)
    refine ⟨s2, ?_, hs2, by simpa using hP2⟩
    simp [runFrames, hr, hrun]

end RunLemmas

section ClosedForm

variable {α : Type} [Zero α] [One α] [NatCast α] [Add α] [Sub α] [Mul α] [Div α]

/-- The state after any list of clock readings, in any arithmetic: the angle of a body is its
speed added to `0` once per frame, `position.y` is `0`, and the position is `(distance, 0, 0)`
before the first frame and `(sin angle * distance, 0, cos angle * distance)` after it. -/
theorem runFrames_closed_form (M : JSMath α) (planets : List (PlanetConfig α)) (ts : List α) :
    ∃ s, runFrames M planets ts (initScene planets) = some s ∧
      AllBodies planets s.planetMeshes
        (fun d sp b => b.rotation.y = (fun a => a + sp)^[ts.length] 0 ∧
          b.position.y = 0 ∧
          (ts = [] → b.position.x = d ∧ b.position.z = 0) ∧
          (ts ≠ [] → b.position.x = M.sin b.rotation.y * d ∧
            b.position.z = M.cos b.rotation.y * d)) := by
  obtain ⟨s, hrun, -, hP⟩ := runFrames_invariant M planets
    (fun pre s => AllBodies planets s.planetMeshes
      (fun d sp b => b.rotation.y = (fun a => a + sp)^[pre.length] 0 ∧
        b.position.y = 0 ∧
        (pre = [] → b.position.x = d ∧ b.position.z = 0) ∧
        (pre ≠ [] → b.position.x = M.sin b.rotation.y * d ∧
          b.position.z = M.cos b.rotation.y * d)))
    (by
      intro pre s t s' _ hP hf
      refine allBodies_step planets _ _ _ _ _ hf.2.2 hP ?_
      intro d sp b b' hstep hb
      obtain ⟨-, -, -, hrot, hpos⟩ := hstep
      refine ⟨?_, by simp [hpos, hb.2.1], by simp, ?_⟩
      · simp only [hrot, hb.1, List.length_append, List.length_singleton,
          Function.iterate_succ_apply']
      · intro _
        simp [hrot, hpos])
    ts [] (initScene planets) (shapeOK_initScene planets)
    (allBodies_mono planets _ _ _ (allBodies_initScene planets)
      (by intro d sp b hb; simp [hb.1, hb.2]))
  exact ⟨s, hrun, by simpa using hP⟩

end ClosedForm

/-! ## The order of the writes of a frame -/

section LayoutLemmas

variable {α : Type}

theorem rank_sun : Target.sun.rank = (0, 0) := rfl

theorem rank_planet (i : Nat) : (Target.planet i).rank = (i + 1, 0) := rfl

theorem rank_moon (i j : Nat) : (Target.moon i j).rank = (i + 1, j + 1) := rfl

/-- The part of the layout written for the children of planet `i`, numbered from `k`, is in
traversal order and names only moons of planet `i`. -/
theorem moonLayout_sorted (i : Nat) : ∀ (cs : List (Mesh α)) (k : Nat),
    ((cs.enumFrom k).flatMap (fun jc => bodyWrites (.moon i jc.1))).Pairwise
        (fun x y => x.1.notAfter y.1) ∧
      ∀ x ∈ (cs.enumFrom k).flatMap (fun jc => bodyWrites (.moon i jc.1)),
        x.1.rank.1 = i + 1 ∧ k + 1 ≤ x.1.rank.2 := by
  intro cs
  induction cs with
  | nil => intro k; simp
  | cons c rest ih =>
    intro k
    obtain ⟨hsorted, hmem⟩ := ih (k + 1)
    simp only [List.enumFrom_cons, List.flatMap_cons]
    constructor
    · rw [List.pairwise_append]
      refine ⟨by simp [bodyWrites, Target.notAfter, rank_sun, rank_planet, rank_moon], hsorted, ?_⟩
      intro a ha b hb
      obtain ⟨h1, h2⟩ := hmem b hb
      simp only [bodyWrites, List.mem_cons, List.mem_singleton, List.not_mem_nil,
        or_false] at ha
      rcases ha with rfl | rfl | rfl <;>
        simp only [Target.notAfter, rank_sun, rank_planet, rank_moon] <;> omega
    · intro x hx
      rw [List.mem_append] at hx
      rcases hx with hx | hx
      · simp only [bodyWrites, List.mem_cons, List.mem_singleton, List.not_mem_nil,
          or_false] at hx
        rcases hx with rfl | rfl | rfl <;> simp [rank_sun, rank_planet, rank_moon]
      · obtain ⟨h1, h2⟩ := hmem x hx
        exact ⟨h1, by omega⟩

/-- The part of the layout written for the planets, numbered from `k`, is in traversal order
and names only planets from `k` on and their moons. -/
theorem planetLayout_sorted : ∀ (ms : List (Mesh α)) (k : Nat),
    ((ms.enumFrom k).flatMap (fun im =>
        bodyWrites (.planet im.1) ++
          im.2.children.enum.flatMap (fun jc => bodyWrites (.moon im.1 jc.1)))).Pairwise
        (fun x y => x.1.notAfter y.1) ∧
      ∀ x ∈ (ms.enumFrom k).flatMap (fun im =>
        bodyWrites (.planet im.1) ++
          im.2.children.enum.flatMap (fun jc => bodyWrites (.moon im.1 jc.1))),
        k + 1 ≤ x.1.rank.1 := by
  intro ms
  induction ms with
  | nil => intro k; simp
  | cons m rest ih =>
    intro k
    obtain ⟨hsorted, hmem⟩ := ih (k + 1)
    obtain ⟨hmsorted, hmmem⟩ := moonLayout_sorted k m.children 0
    have hhead : ∀ x ∈ bodyWrites (.planet k) ++
        m.children.enum.flatMap (fun jc => bodyWrites (.moon k jc.1)),
        x.1.rank.1 = k + 1 := by
      intro x hx
      rw [List.mem_append] at hx
      rcases hx with hx | hx
      · simp only [bodyWrites, List.mem_cons, List.mem_singleton, List.not_mem_nil,
          or_false] at hx
        rcases hx with rfl | rfl | rfl <;> simp [rank_sun, rank_planet, rank_moon]
      · exact (hmmem x hx).1
    simp only [List.enumFrom_cons, List.flatMap_cons]
    constructor
    · rw [List.pairwise_append]
      refine ⟨?_, hsorted, ?_⟩
      · rw [List.pairwise_append]
        refine ⟨by simp [bodyWrites, Target.notAfter, rank_sun, rank_planet, rank_moon], hmsorted, ?_⟩
        intro a ha b hb
        obtain ⟨h1, h2⟩ := hmmem b hb
        simp only [bodyWrites, List.mem_cons, List.mem_singleton, List.not_mem_nil,
          or_false] at ha
        rcases ha with rfl | rfl | rfl <;>
          simp only [Target.notAfter, rank_sun, rank_planet, rank_moon] <;> omega
      · intro a ha b hb
        have h1 := hhead a ha
        have h2 := hmem b hb
        simp only [Target.notAfter]
        omega
    · intro x hx
      rw [List.mem_append] at hx
      rcases hx with hx | hx
      · have := hhead x hx
        omega
      · have := hmem x hx
        omega

/-- The layout of a frame is in traversal order. -/
theorem frameLayout_sorted (ms : List (Mesh α)) :
    (frameLayout ms).Pairwise (fun x y => x.1.notAfter y.1) := by
  obtain ⟨hsorted, hmem⟩ := planetLayout_sorted ms 0
  simp only [frameLayout, List.pairwise_cons]
  refine ⟨?_, hsorted⟩
  intro b hb
  have := hmem b hb
  simp only [Target.notAfter, rank_sun]
  omega

end LayoutLemmas

/-! ## Numeric bounds on `sin 1` and `cos 1` -/

section Bounds

/-- The exponential series of `exp i` cut after nine terms is within `10⁻⁵` of `exp i`. -/
theorem exp_I_near :
    Complex.abs (Complex.exp Complex.I
      - (⟨1 - 1/2 + 1/24 - 1/720 + 1/40320, 1 - 1/6 + 1/120 - 1/5040⟩ : ℂ)) ≤ 1 / 100000 := by
  have h := Complex.exp_bound (x := Complex.I) (by simp) (n := 9) (by norm_num)
  have hS : (∑ m ∈ Finset.range 9, Complex.I ^ m / (m.factorial : ℂ))
      = (⟨1 - 1/2 + 1/24 - 1/720 + 1/40320, 1 - 1/6 + 1/120 - 1/5040⟩ : ℂ) := by
    simp only [Finset.sum_range_succ, Finset.sum_range_zero, Nat.factorial]
    apply Complex.ext
    · simp [pow_succ, Complex.div_re, Complex.normSq]
      norm_num
    · simp [pow_succ, Complex.div_im, Complex.normSq]
      norm_num
  rw [hS] at h
  refine h.trans ?_
  simp [Nat.factorial]
  norm_num

theorem sin_one_bounds : 0.8414 < Real.sin 1 ∧ Real.sin 1 < 0.8416 := by
  have him := (Complex.abs_im_le_abs _).trans exp_I_near
  have hsin : (Complex.exp Complex.I).im = Real.sin 1 := by
    simpa using Complex.exp_ofReal_mul_I_im 1
  simp only [Complex.sub_im, hsin] at him
  rw [abs_le] at him
  constructor <;> norm_num at him ⊢ <;> linarith [him.1, him.2]

theorem cos_one_bounds : 0.5402 < Real.cos 1 ∧ Real.cos 1 < 0.5404 := by
  have hre := (Complex.abs_re_le_abs _).trans exp_I_near
  have hcos : (Complex.exp Complex.I).re = Real.cos 1 := by
    simpa using Complex.exp_ofReal_mul_I_re 1
  simp only [Complex.sub_re, hcos] at hre
  rw [abs_le] at hre
  constructor <;> norm_num at hre ⊢ <;> linarith [hre.1, hre.2]

end Bounds

/-! ## Facts about JavaScript numbers -/

section Binary64Lemmas

/-- What the binary search computes: the position of the leading bit. -/
theorem log2Aux_spec : ∀ (i m acc : Nat), 0 < m → m < 2 ^ 2 ^ i →
    acc ≤ Binary64.log2Aux i m acc ∧
      2 ^ (Binary64.log2Aux i m acc - acc) ≤ m ∧
      m < 2 ^ (Binary64.log2Aux i m acc - acc + 1) := by
  intro i
  induction i with
  | zero =>
    intro m acc h0 h1
    have hm : m = 1 := by
      simp at h1
      omega
    subst hm
    simp [Binary64.log2Aux]
  | succ i ih =>
    intro m acc h0 h1
    have hc : 0 < 2 ^ 2 ^ i := Nat.two_pow_pos _
    have hsq : 2 ^ 2 ^ (i + 1) = 2 ^ 2 ^ i * 2 ^ 2 ^ i := by
      rw [pow_succ, pow_mul, sq]
    unfold Binary64.log2Aux
    split
    · rename_i hle
      have hm1 : 0 < m / 2 ^ 2 ^ i := Nat.div_pos hle hc
      have hm2 : m / 2 ^ 2 ^ i < 2 ^ 2 ^ i := by
        rw [Nat.div_lt_iff_lt_mul hc]
        rw [hsq] at h1
        exact h1
      obtain ⟨h3, h4, h5⟩ := ih (m / 2 ^ 2 ^ i) (acc + 2 ^ i) hm1 hm2
      generalize Binary64.log2Aux i (m / 2 ^ 2 ^ i) (acc + 2 ^ i) = r at h3 h4 h5 ⊢
      generalize hp : 2 ^ i = p at h3 h4 h5 ⊢
      have hsub : r - acc = (r - (acc + p)) + p := by omega
      refine ⟨by omega, ?_, ?_⟩
      · rw [hsub, pow_add, ← hp]
        calc 2 ^ (r - (acc + 2 ^ i)) * 2 ^ 2 ^ i ≤ m / 2 ^ 2 ^ i * 2 ^ 2 ^ i := by
              rw [hp]; exact Nat.mul_le_mul_right _ h4
          _ ≤ m := Nat.div_mul_le_self m _
      · have hlt : m < (m / 2 ^ 2 ^ i + 1) * 2 ^ 2 ^ i := by
          have := Nat.lt_succ_iff.mpr (le_refl (m / 2 ^ 2 ^ i))
          exact (Nat.div_lt_iff_lt_mul hc).mp this
        have : r - acc + 1 = (r - (acc + p) + 1) + p := by omega
        rw [this, pow_add, ← hp]
        refine lt_of_lt_of_le hlt (Nat.mul_le_mul_right _ ?_)
        rw [hp]
        exact h5
    · rename_i hlt
      exact ih m acc h0 (Nat.lt_of_not_le hlt)

/-- The function `floorLog2` is the floor of the binary logarithm below `2 ^ 4096`. -/
theorem floorLog2_spec (n : Nat) (h0 : 0 < n) (h1 : n < 2 ^ 4096) :
    2 ^ Binary64.floorLog2 n ≤ n ∧ n < 2 ^ (Binary64.floorLog2 n + 1) := by
  have h12 : (2 : Nat) ^ 12 = 4096 := by norm_num
  have := log2Aux_spec 12 n 0 h0 (by rw [h12]; exact h1)
  simpa [Binary64.floorLog2] using this.2

/-- The rounding picks a number within half a unit in the last place of the exact quotient. -/
theorem roundUnits_nearest (negative : Bool) (A D : Nat) (hD : 0 < D) (k : Int)
    (h : Binary64.roundUnits negative A D = .finite k) :
    2 * (k.natAbs * D) ≤ 2 * A + D * 2 ^ (Binary64.floorLog2 (A / D) - 52) ∧
      2 * A ≤ 2 * (k.natAbs * D) + D * 2 ^ (Binary64.floorLog2 (A / D) - 52) := by
  unfold Binary64.roundUnits at h
  dsimp only at h
  generalize Binary64.floorLog2 (A / D) - 52 = sh at h ⊢
  have hdvpos : 0 < D * 2 ^ sh := Nat.mul_pos hD (Nat.two_pow_pos _)
  have hdm := Nat.div_add_mod A (D * 2 ^ sh)
  have hrem := Nat.mod_lt A hdvpos
  generalize hdv : D * 2 ^ sh = dv at h hdm hrem ⊢
  generalize A / dv = n at h hdm
  generalize A % dv = rem at h hdm hrem
  generalize hn' : (if 2 * rem < dv then n else if dv < 2 * rem then n + 1
            else if n % 2 = 0 then n else n + 1) = n' at h
  have hcase : n' = n ∧ 2 * rem ≤ dv ∨ n' = n + 1 ∧ dv ≤ 2 * rem := by
    split at hn'
    · exact Or.inl ⟨hn'.symm, by omega⟩
    · split at hn'
      · exact Or.inr ⟨hn'.symm, by omega⟩
      · split at hn'
        · exact Or.inl ⟨hn'.symm, by omega⟩
        · exact Or.inr ⟨hn'.symm, by omega⟩
  split at h
  · exact absurd h (by simp)
  · simp only [Binary64.finite.injEq] at h
    have hk : k.natAbs = n' * 2 ^ sh := by
      rw [← h]
      split
      · rw [Int.natAbs_neg, Int.natAbs_ofNat]
      · rw [Int.natAbs_ofNat]
    have hkD : k.natAbs * D = dv * n' := by
      rw [hk, ← hdv]; ring
    rw [hkD]
    rcases hcase with ⟨rfl, hle⟩ | ⟨rfl, hle⟩
    · omega
    · have : dv * (n + 1) = dv * n + dv := by ring
      omega


/-- The rounding keeps at most 53 significant bits: the result is a whole number of at most
`2 ^ 53` quanta of `2 ^ (floorLog2 (A / D) - 52)` units. -/
theorem roundUnits_precision (negative : Bool) (A D : Nat)
    (hA : A / D < 2 ^ 4096) (k : Int)
    (h : Binary64.roundUnits negative A D = .finite k) :
    ∃ n', k.natAbs = n' * 2 ^ (Binary64.floorLog2 (A / D) - 52) ∧ n' ≤ 2 ^ 53 := by
  have hbits : A / D / 2 ^ (Binary64.floorLog2 (A / D) - 52) < 2 ^ 53 := by
    rw [Nat.div_lt_iff_lt_mul (Nat.two_pow_pos _)]
    rcases Nat.eq_zero_or_pos (A / D) with h0 | hpos
    · rw [h0]
      exact Nat.mul_pos (Nat.two_pow_pos _) (Nat.two_pow_pos _)
    · obtain ⟨-, hlt⟩ := floorLog2_spec (A / D) hpos hA
      refine lt_of_lt_of_le hlt ?_
      rw [← pow_add]
      exact Nat.pow_le_pow_right (by norm_num) (by omega)
  unfold Binary64.roundUnits at h
  dsimp only at h
  generalize Binary64.floorLog2 (A / D) - 52 = sh at h hbits ⊢
  rw [← Nat.div_div_eq_div_mul] at h
  generalize A / D / 2 ^ sh = n at h hbits
  generalize hn' : (if 2 * (A % (D * 2 ^ sh)) < D * 2 ^ sh then n
      else if D * 2 ^ sh < 2 * (A % (D * 2 ^ sh)) then n + 1
      else if n % 2 = 0 then n else n + 1) = n' at h
  have hle : n' ≤ n + 1 := by
    split at hn'
    · omega
    · split at hn'
      · omega
      · split at hn' <;> omega
  split at h
  · exact absurd h (by simp)
  · simp only [Binary64.finite.injEq] at h
    refine ⟨n', ?_, by omega⟩
    rw [← h]
    split
    · rw [Int.natAbs_neg, Int.natAbs_ofNat]
    · rw [Int.natAbs_ofNat]

theorem floorLog2_zero : Binary64.floorLog2 0 = 0 := by decide!

/-- A quotient far below the overflow threshold is rounded to a finite number within half a
unit in the last place. -/
theorem roundUnits_small (A D : Nat) (hD : 0 < D) (hsmall : A / D < 2 ^ 2097) :
    ∃ kn : Nat, Binary64.roundUnits false A D = .finite (kn : Int) ∧
      2 * (kn * D) ≤ 2 * A + D * 2 ^ (Binary64.floorLog2 (A / D) - 52) ∧
      2 * A ≤ 2 * (kn * D) + D * 2 ^ (Binary64.floorLog2 (A / D) - 52) := by
  have hshq : 2 ^ (Binary64.floorLog2 (A / D) - 52) ≤ max (A / D) 1 := by
    rcases Nat.eq_zero_or_pos (A / D) with h0 | hpos
    · rw [h0, floorLog2_zero]
      simp
    · have h4096 : A / D < 2 ^ 4096 :=
        lt_trans hsmall (Nat.pow_lt_pow_right Nat.one_lt_two (by decide))
      obtain ⟨hle, -⟩ := floorLog2_spec (A / D) hpos h4096
      refine le_trans ?_ (le_trans hle (le_max_left _ _))
      exact Nat.pow_le_pow_right (by norm_num) (by omega)
  have hfin : ∃ kn : Nat, Binary64.roundUnits false A D = .finite (kn : Int) := by
    unfold Binary64.roundUnits
    dsimp only
    generalize Binary64.floorLog2 (A / D) - 52 = sh at hshq ⊢
    rw [← Nat.div_div_eq_div_mul]
    have hn : A / D / 2 ^ sh * 2 ^ sh ≤ A / D := Nat.div_mul_le_self _ _
    generalize A / D / 2 ^ sh = n at hn ⊢
    generalize hn' : (if 2 * (A % (D * 2 ^ sh)) < D * 2 ^ sh then n
        else if D * 2 ^ sh < 2 * (A % (D * 2 ^ sh)) then n + 1
        else if n % 2 = 0 then n else n + 1) = n'
    have hle : n' ≤ n + 1 := by
      split at hn'
      · omega
      · split at hn'
        · omega
        · split at hn' <;> omega
    have hlt : n' * 2 ^ sh < 2 ^ 2098 := by
      have h1 : n' * 2 ^ sh ≤ n * 2 ^ sh + 2 ^ sh := by
        calc n' * 2 ^ sh ≤ (n + 1) * 2 ^ sh := Nat.mul_le_mul_right _ hle
          _ = n * 2 ^ sh + 2 ^ sh := by ring
      have h2 : (2 : Nat) ^ 2098 = 2 ^ 2097 + 2 ^ 2097 := by
        rw [pow_succ]; ring
      have h3 : max (A / D) 1 < 2 ^ 2097 :=
        max_lt hsmall (Nat.one_lt_two_pow (by norm_num))
      rw [h2]
      generalize (2 : Nat) ^ 2097 = B at hsmall h3 ⊢
      generalize 2 ^ sh = S at h1 hshq hn ⊢
      generalize n' * S = X at h1 ⊢
      generalize n * S = Y at h1 hn
      omega
    rw [if_neg (Nat.not_le.mpr hlt)]
    exact ⟨n' * 2 ^ sh, by simp⟩
  obtain ⟨kn, hk⟩ := hfin
  obtain ⟨h1, h2⟩ := roundUnits_nearest false A D hD kn hk
  rw [Int.natAbs_ofNat] at h1 h2
  exact ⟨kn, hk, h1, h2⟩


theorem ten_eq : (10 : Binary64) = .finite ((10 * 2 ^ 1074 : Nat) : Int) := by decide!

/-- Ten times a finite number between 0 and 1 is a finite number within `2 ^ (-50)` of the
exact product. -/
theorem finite_mul_ten (ks : Int) (h0 : 0 < ks) (h1 : ks < 2 ^ 1074) :
    ∃ kx : Nat, Binary64.finite ks * (10 : Binary64) = .finite (kx : Int) ∧
      |(kx : ℝ) / 2 ^ 1074 - 10 * ((ks : ℝ) / 2 ^ 1074)| ≤ 1 / 2 ^ 50 := by
  obtain ⟨n, rfl⟩ : ∃ n : Nat, ks = (n : Int) := ⟨ks.natAbs, (Int.natAbs_of_nonneg h0.le).symm⟩
  have hn0 : 0 < n := by exact_mod_cast h0
  have hn1 : n < 2 ^ 1074 := by exact_mod_cast h1
  have hmul : Binary64.finite (n : Int) * (10 : Binary64)
      = Binary64.roundUnits false (n * (10 * 2 ^ 1074)) (2 ^ 1074) := by
    rw [ten_eq]
    show Binary64.mul _ _ = _
    have ha : decide ((n : Int) < 0) = false := by
      simp
    have hb : decide ((((10 * 2 ^ 1074 : Nat)) : Int) < 0) = false := by
      rw [decide_eq_false_iff_not]
      exact not_lt.mpr (Int.natCast_nonneg _)
    simp only [Binary64.mul, ha, hb, Int.natAbs_ofNat, Bool.xor_false]
  have hq : n * (10 * 2 ^ 1074) / 2 ^ 1074 = n * 10 := by
    rw [← Nat.mul_assoc]
    exact Nat.mul_div_cancel _ (Nat.two_pow_pos _)
  have hq1 : n * 10 < 2 ^ 1078 := by
    have : (2 : Nat) ^ 1078 = 2 ^ 1074 * 16 := by
      rw [show 1078 = 1074 + 4 from rfl, pow_add]
      congr 1
    rw [this]
    generalize (2 : Nat) ^ 1074 = B at hn1 ⊢
    omega
  have hsmall : n * (10 * 2 ^ 1074) / 2 ^ 1074 < 2 ^ 2097 := by
    rw [hq]
    exact lt_trans hq1 (Nat.pow_lt_pow_right (by norm_num) (by norm_num))
  obtain ⟨kx, hk, hle, hge⟩ :=
    roundUnits_small (n * (10 * 2 ^ 1074)) (2 ^ 1074) (Nat.two_pow_pos _) hsmall
  rw [hq] at hle hge
  have hsh : 2 ^ (Binary64.floorLog2 (n * 10) - 52) ≤ 2 ^ 1025 := by
    have hpos : 0 < n * 10 := by omega
    have h4096 : n * 10 < 2 ^ 4096 :=
      lt_trans hq1 (Nat.pow_lt_pow_right (by norm_num) (by norm_num))
    obtain ⟨hlo, -⟩ := floorLog2_spec (n * 10) hpos h4096
    have hL : Binary64.floorLog2 (n * 10) < 1078 :=
      (Nat.pow_lt_pow_iff_right (by norm_num)).mp (lt_of_le_of_lt hlo hq1)
    exact Nat.pow_le_pow_right (by norm_num) (by omega)
  refine ⟨kx, by rw [hmul, hk], ?_⟩
  have hU : (2 : Nat) ^ 1074 = 2 ^ 1025 * 2 ^ 49 := by rw [← pow_add]
  have hu : (2 : ℝ) ^ 1074 = ((2 ^ 1025 : Nat) : ℝ) * 2 ^ 49 := by
    rw [Nat.cast_pow, Nat.cast_ofNat, ← pow_add]
  have he : (0 : ℝ) < ((2 ^ 1025 : Nat) : ℝ) := by
    rw [Nat.cast_pow, Nat.cast_ofNat]; positivity
  generalize 2 ^ (Binary64.floorLog2 (n * 10) - 52) = S at hle hge hsh
  rw [hU] at hle hge
  rw [hu]
  generalize (2 : Nat) ^ 1025 = E at hle hge hsh he ⊢
  have hSE : (S : ℝ) ≤ (E : ℝ) := by exact_mod_cast hsh
  have hleR0 : (2 : ℝ) * ((kx : ℝ) * ((E : ℝ) * 2 ^ 49))
      ≤ 2 * ((n : ℝ) * (10 * ((E : ℝ) * 2 ^ 49))) + (E : ℝ) * 2 ^ 49 * S := by
    exact_mod_cast hle
  have hgeR0 : (2 : ℝ) * ((n : ℝ) * (10 * ((E : ℝ) * 2 ^ 49)))
      ≤ 2 * ((kx : ℝ) * ((E : ℝ) * 2 ^ 49)) + (E : ℝ) * 2 ^ 49 * S := by
    exact_mod_cast hge
  have hES : (E : ℝ) * 2 ^ 49 * S ≤ (E : ℝ) * 2 ^ 49 * E :=
    mul_le_mul_of_nonneg_left hSE (mul_nonneg (Nat.cast_nonneg E) (pow_nonneg (by norm_num) 49))
  have hleR : (2 : ℝ) * ((kx : ℝ) * ((E : ℝ) * 2 ^ 49))
      ≤ 2 * ((n : ℝ) * (10 * ((E : ℝ) * 2 ^ 49))) + (E : ℝ) * 2 ^ 49 * E := by
    linarith
  have hgeR : (2 : ℝ) * ((n : ℝ) * (10 * ((E : ℝ) * 2 ^ 49)))
      ≤ 2 * ((kx : ℝ) * ((E : ℝ) * 2 ^ 49)) + (E : ℝ) * 2 ^ 49 * E := by
    linarith
  clear hleR0 hgeR0 hES hSE
  generalize (E : ℝ) = e at hleR hgeR he ⊢
  have h49 : (0 : ℝ) < 2 ^ 49 := by positivity
  have hden : (0 : ℝ) < e * 2 ^ 49 := mul_pos he h49
  have hle2 : 2 * (kx : ℝ) ≤ 2 * ((n : ℝ) * 10) + e := by
    have := hleR
    have h3 : (2 * (kx : ℝ)) * (e * 2 ^ 49) ≤ (2 * ((n : ℝ) * 10) + e) * (e * 2 ^ 49) := by
      linarith
    exact le_of_mul_le_mul_right h3 hden
  have hge2 : 2 * ((n : ℝ) * 10) ≤ 2 * (kx : ℝ) + e := by
    have h3 : (2 * ((n : ℝ) * 10)) * (e * 2 ^ 49) ≤ (2 * (kx : ℝ) + e) * (e * 2 ^ 49) := by
      linarith
    exact le_of_mul_le_mul_right h3 hden
  rw [Int.cast_natCast, abs_le]
  have hdiv : (kx : ℝ) / (e * 2 ^ 49) - 10 * ((n : ℝ) / (e * 2 ^ 49))
      = ((kx : ℝ) - 10 * n) / (e * 2 ^ 49) := by ring
  have hhalf : (1 : ℝ) / 2 ^ 50 * (e * 2 ^ 49) = e / 2 := by
    rw [show (2 : ℝ) ^ 50 = 2 ^ 49 * 2 from by rw [pow_succ]]
    field_simp
    ring
  rw [hdiv]
  constructor
  · rw [le_div_iff₀ hden, neg_mul, hhalf]
    linarith
  · rw [div_le_iff₀ hden, hhalf]
    linarith


theorem toRat_finite (k : Int) :
    ((Binary64.toRat (.finite k) : ℚ) : ℝ) = (k : ℝ) / 2 ^ 1074 := by
  rw [Binary64.toRat, Rat.cast_div, Rat.cast_intCast, Rat.cast_pow, Rat.cast_ofNat]

theorem theta_eq :
    (1.0000000000000007 : Binary64) = .finite (((2 ^ 52 + 3) * 2 ^ 1022 : Nat) : Int) := by
  decide!

/-- The Number 1.0000000000000007 stands for `1 + 3 / 2 ^ 52`. -/
theorem theta_toRat :
    ((Binary64.toRat 1.0000000000000007 : ℚ) : ℝ) = 1 + 3 / 2 ^ 52 := by
  rw [theta_eq, toRat_finite, Int.cast_natCast, Nat.cast_mul, Nat.cast_add, Nat.cast_pow,
    Nat.cast_pow, Nat.cast_ofNat, Nat.cast_ofNat,
    show (2 : ℝ) ^ 1074 = 2 ^ 1022 * 2 ^ 52 from by rw [← pow_add]]
  have h1 : (0 : ℝ) < 2 ^ 1022 := pow_pos (by norm_num) _
  generalize (2 : ℝ) ^ 1022 = e at h1 ⊢
  field_simp
  ring

theorem sin_one_near : |Real.sin 1 - 4241 / 5040| ≤ 1 / 100000 := by
  have him := (Complex.abs_im_le_abs _).trans exp_I_near
  have hsin : (Complex.exp Complex.I).im = Real.sin 1 := by
    simpa using Complex.exp_ofReal_mul_I_im 1
  simp only [Complex.sub_im, hsin] at him
  have : (1 - 1 / 6 + 1 / 120 - 1 / 5040 : ℝ) = 4241 / 5040 := by norm_num
  rw [this] at him
  exact him

theorem cos_one_near : |Real.cos 1 - 21785 / 40320| ≤ 1 / 100000 := by
  have hre := (Complex.abs_re_le_abs _).trans exp_I_near
  have hcos : (Complex.exp Complex.I).re = Real.cos 1 := by
    simpa using Complex.exp_ofReal_mul_I_re 1
  simp only [Complex.sub_re, hcos] at hre
  have : (1 - 1 / 2 + 1 / 24 - 1 / 720 + 1 / 40320 : ℝ) = 21785 / 40320 := by norm_num
  rw [this] at hre
  exact hre

theorem abs_sin_sub_sin_le (x y : ℝ) : |Real.sin x - Real.sin y| ≤ |x - y| := by
  rw [Real.sin_sub_sin, abs_mul, abs_mul]
  have h1 : |Real.sin ((x - y) / 2)| ≤ |(x - y) / 2| := Real.abs_sin_le_abs
  have h2 : |Real.cos ((x + y) / 2)| ≤ 1 := Real.abs_cos_le_one _
  have h3 : |(x - y) / 2| = |x - y| / 2 := by rw [abs_div]; norm_num
  have h0 : 0 ≤ |Real.sin ((x - y) / 2)| := abs_nonneg _
  have h4 : |(2 : ℝ)| = 2 := by norm_num
  rw [h4]
  nlinarith [abs_nonneg (Real.cos ((x + y) / 2)), abs_nonneg (x - y)]

theorem abs_cos_sub_cos_le (x y : ℝ) : |Real.cos x - Real.cos y| ≤ |x - y| := by
  rw [Real.cos_sub_cos, abs_mul, abs_mul]
  have h1 : |Real.sin ((x - y) / 2)| ≤ |(x - y) / 2| := Real.abs_sin_le_abs
  have h2 : |Real.sin ((x + y) / 2)| ≤ 1 := Real.abs_sin_le_one _
  have h3 : |(x - y) / 2| = |x - y| / 2 := by rw [abs_div]; norm_num
  have h4 : |(-2 : ℝ)| = 2 := by norm_num
  rw [h4]
  nlinarith [abs_nonneg (Real.sin ((x + y) / 2)), abs_nonneg (x - y),
    abs_nonneg (Real.sin ((x - y) / 2))]

/-- The sine of the number 1.0000000000000007 stands for, to within 0.000011. -/
theorem sin_theta_near : |Real.sin (1 + 3 / 2 ^ 52) - 4241 / 5040| ≤ 0.000011 := by
  have h52 : |(1 + 3 / 2 ^ 52 : ℝ) - 1| ≤ 0.000001 := by
    rw [abs_le]
    constructor <;> norm_num
  have h1 := abs_sin_sub_sin_le (1 + 3 / 2 ^ 52) 1
  have h2 := sin_one_near
  have h3 := abs_sub_le (Real.sin (1 + 3 / 2 ^ 52)) (Real.sin 1) (4241 / 5040)
  have h4 : (1 : ℝ) / 100000 = 0.00001 := by norm_num
  linarith

/-- The cosine of the number 1.0000000000000007 stands for, to within 0.000011. -/
theorem cos_theta_near : |Real.cos (1 + 3 / 2 ^ 52) - 21785 / 40320| ≤ 0.000011 := by
  have h52 : |(1 + 3 / 2 ^ 52 : ℝ) - 1| ≤ 0.000001 := by
    rw [abs_le]
    constructor <;> norm_num
  have h1 := abs_cos_sub_cos_le (1 + 3 / 2 ^ 52) 1
  have h2 := cos_one_near
  have h3 := abs_sub_le (Real.cos (1 + 3 / 2 ^ 52)) (Real.cos 1) (21785 / 40320)
  have h4 : (1 : ℝ) / 100000 = 0.00001 := by norm_num
  linarith

theorem sin_value_eq :
    (0.8414709848078968 : Binary64)
      = .finite ((7579296827247857 * 2 ^ 1021 : Nat) : Int) := by
  decide!

theorem cos_value_eq :
    (0.5403023058681392 : Binary64)
      = .finite ((4866610526750343 * 2 ^ 1021 : Nat) : Int) := by
  decide!

/-- The Number 0.8414709848078968 stands for `7579296827247857 / 2 ^ 53`. -/
theorem sin_value_toRat :
    ((Binary64.toRat 0.8414709848078968 : ℚ) : ℝ) = 7579296827247857 / 2 ^ 53 := by
  rw [sin_value_eq, toRat_finite, Int.cast_natCast, Nat.cast_mul, Nat.cast_pow,
    Nat.cast_ofNat, Nat.cast_ofNat,
    show (2 : ℝ) ^ 1074 = 2 ^ 1021 * 2 ^ 53 from by rw [← pow_add]]
  have h1 : (0 : ℝ) < 2 ^ 1021 := pow_pos (by norm_num) _
  generalize (2 : ℝ) ^ 1021 = e at h1 ⊢
  field_simp
  ring

/-- The Number 0.5403023058681392 stands for `4866610526750343 / 2 ^ 53`. -/
theorem cos_value_toRat :
    ((Binary64.toRat 0.5403023058681392 : ℚ) : ℝ) = 4866610526750343 / 2 ^ 53 := by
  rw [cos_value_eq, toRat_finite, Int.cast_natCast, Nat.cast_mul, Nat.cast_pow,
    Nat.cast_ofNat, Nat.cast_ofNat,
    show (2 : ℝ) ^ 1074 = 2 ^ 1021 * 2 ^ 53 from by rw [← pow_add]]
  have h1 : (0 : ℝ) < 2 ^ 1021 := pow_pos (by norm_num) _
  generalize (2 : ℝ) ^ 1021 = e at h1 ⊢
  field_simp
  ring

/-- The products JavaScript computes for Mercury's position after 100 frames. -/
theorem position_values :
    (0.8414709848078968 : Binary64) * 10 = 8.414709848078969 ∧
    (0.5403023058681392 : Binary64) * 10 = 5.403023058681392 := by
  decide!

/-- Ten times a finite number that stands for about `c`, with `c` between 0.1 and 0.9, is a
finite number that stands for about `10 * c`. -/
theorem times_ten_near (v : Binary64) (r c : ℝ) (hfin : ∃ k, v = .finite k)
    (hacc : |((v.toRat : ℚ) : ℝ) - r| ≤ 0.00005) (hr : |r - c| ≤ 0.000011)
    (hc0 : 0.1 ≤ c) (hc1 : c ≤ 0.9) :
    (∃ kx, v * 10 = .finite kx) ∧ |(((v * 10).toRat : ℚ) : ℝ) - 10 * c| ≤ 0.00062 := by
  obtain ⟨k, rfl⟩ := hfin
  rw [toRat_finite] at hacc
  rw [abs_le] at hacc hr
  have hu : (0 : ℝ) < 2 ^ 1074 := pow_pos (by norm_num) _
  have hlo : (0 : ℝ) < (k : ℝ) / 2 ^ 1074 := by linarith [hacc.1, hr.1]
  have hhi : (k : ℝ) / 2 ^ 1074 < 1 := by linarith [hacc.2, hr.2]
  have hk0 : 0 < k := by
    have : (0 : ℝ) < (k : ℝ) := by
      rcases div_pos_iff.mp hlo with h | h
      · exact h.1
      · exact absurd h.2 (not_lt.mpr hu.le)
    exact_mod_cast this
  have hk1 : k < 2 ^ 1074 := by
    have : (k : ℝ) < (((2 : Int) ^ 1074 : Int) : ℝ) := by
      rw [div_lt_one hu] at hhi
      rw [Int.cast_pow, Int.cast_ofNat]
      exact hhi
    exact Int.cast_lt.mp this
  obtain ⟨kx, hx, herr⟩ := finite_mul_ten k hk0 hk1
  refine ⟨⟨kx, hx⟩, ?_⟩
  rw [hx, toRat_finite, Int.cast_natCast]
  rw [abs_le] at herr ⊢
  have h50 : (1 : ℝ) / 2 ^ 50 ≤ 0.000001 := by norm_num
  constructor <;> linarith [herr.1, herr.2, hacc.1, hacc.2, hr.1, hr.2]

/-- Sample values of the arithmetic, as JavaScript computes them. -/
theorem binary64_examples :
    (0.1 : Binary64) + 0.2 = 0.30000000000000004 ∧
    (0.1 : Binary64) + 0.2 ≠ 0.3 ∧
    (0.1 : Binary64) * 3 = 0.30000000000000004 ∧
    (1 : Binary64) / 3 = 0.3333333333333333 ∧
    (3.141592653589793 : Binary64) / 180 = 0.017453292519943295 ∧
    (1 : Binary64) - 0.9 = 0.09999999999999998 ∧
    (5e-324 : Binary64) = .finite 1 ∧
    (5e-324 : Binary64) / 2 = 0 ∧
    (1.7976931348623157e308 : Binary64) + 1e291 = 1.7976931348623157e308 ∧
    (1.7976931348623157e308 : Binary64) + 1e292 = .inf false ∧
    (1e308 : Binary64) * 10 = .inf false ∧
    (1 : Binary64) / 0 = .inf false ∧
    (0 : Binary64) / 0 = .nan := by
  decide!

/-- Adding `0.01` to `0` a hundred times gives 1.0000000000000007. -/
theorem hundredth_summed :
    (fun a : Binary64 => a + 0.01)^[100] 0 = 1.0000000000000007 := by
  decide!

theorem hundredth_sum_ne_one : (1.0000000000000007 : Binary64) ≠ 1 := by
  decide!

/-- Adding `1e308` to `0` twice overflows to `+∞`. -/
theorem huge_summed : (fun a : Binary64 => a + 1e308)^[2] 0 = .inf false := by
  decide!

theorem roundUnits_zero (negative : Bool) :
    Binary64.roundUnits negative 0 (2 ^ 1074) = .finite 0 := by
  cases negative <;> decide!

/-- A finite number times zero is zero. -/
theorem finite_mul_zero (a : Int) : (Binary64.finite a) * (0 : Binary64) = 0 := by
  show Binary64.mul (.finite a) (.finite 0) = .finite 0
  simp only [Binary64.mul, Int.natAbs_zero, Nat.mul_zero]
  exact roundUnits_zero _

/-- NaN times anything is NaN. -/
theorem nan_mul (x : Binary64) : Binary64.nan * x = .nan := by
  show Binary64.mul .nan x = .nan
  cases x <;> rfl

end Binary64Lemmas

/-! ## The properties of the specification -/

section Claims

variable {α : Type} [Field α]

/-- C1. For every table and every list `ts` of clock readings, the animation loop started
from the scene built from the table returns after `ts.length` frames, and then every planet
and every moon has `rotation.y` equal to the number of frames times its configured speed.
The angle depends on the readings only through their number. -/
theorem rotation_after_frames (M : JSMath α) (planets : List (PlanetConfig α)) (ts : List α) :
    ∃ s, runFrames M planets ts (initScene planets) = some s ∧
      AllBodies planets s.planetMeshes
        (fun _ speed body => body.rotation.y = (ts.length : α) * speed) := by
  obtain ⟨s, hrun, -, hP⟩ := runFrames_invariant M planets
    (fun pre s => AllBodies planets s.planetMeshes
      (fun _ speed body => body.rotation.y = (pre.length : α) * speed))
    (by
      intro pre s t s' _ hP hf
      refine allBodies_step planets _ _ _ _ _ hf.2.2 hP ?_
      intro d sp b b' hstep hb
      obtain ⟨-, -, -, hrot, -⟩ := hstep
      simp only [hrot, hb, List.length_append, List.length_singleton, Nat.cast_add,
        Nat.cast_one]
      ring)
    ts [] (initScene planets) (shapeOK_initScene planets)
    (allBodies_mono planets _ _ _ (allBodies_initScene planets)
      (by intro d sp b hb; simp [hb.1]))
  exact ⟨s, hrun, by simpa using hP⟩

/-- A use of C1 on the table of the program, with three frames at readings 0.5, 0.25, 4:
Earth's moon ends at angle `3 * 0.015`. -/
theorem rotation_after_frames_witness :
    ∃ s : Scene ℝ, runFrames (JSMath.mk Real.sin Real.cos Real.pi) planets [0.5, 0.25, 4]
        (initScene planets) = some s ∧
      ∃ m c : Mesh ℝ, s.planetMeshes[2]? = some m ∧ m.rotation.y = 3 * 0.005 ∧
        m.children[0]? = some c ∧ c.rotation.y = 3 * 0.015 := by
  obtain ⟨s, hrun, hall⟩ :=
    rotation_after_frames (JSMath.mk Real.sin Real.cos Real.pi) planets [0.5, 0.25, 4]
  obtain ⟨m, hm, hrot, hmoons⟩ := hall 2 earth (by simp [planets])
  obtain ⟨c, hc, hrotc⟩ := hmoons 0 moon (by simp [earth])
  refine ⟨s, hrun, m, c, hm, ?_, hc, ?_⟩
  · simpa [earth] using hrot
  · simpa [moon] using hrotc

/-- C2. One invocation of `renderloop`, on any state whose meshes have the shape of the table
and with any clock reading, returns, and it maps every planet and every moon with angle `a`,
speed `s` and distance `d` to the angle `a + s` and to the position `x = d * sin (a + s)`,
`z = d * cos (a + s)`, with `position.y` unchanged. -/
theorem renderloop_updates_bodies (M : JSMath α) (planets : List (PlanetConfig α)) (t : α)
    (s : Scene α) (h : ShapeOK planets s.planetMeshes) :
    ∃ s' ws, renderloop M planets t s = some (s', ws) ∧
      AllBodies₂ planets s.planetMeshes s'.planetMeshes
        (fun d sp b b' =>
          b'.rotation.y = b.rotation.y + sp ∧
          b'.position.x = d * M.sin (b.rotation.y + sp) ∧
          b'.position.z = d * M.cos (b.rotation.y + sp) ∧
          b'.position.y = b.position.y) := by
  obtain ⟨s', ws, hr, -, hf⟩ := renderloop_step M planets t s h
  refine ⟨s', ws, hr, allBodies₂_mono planets _ _ _ _ hf.2.2 ?_⟩
  intro d sp b b' hstep
  obtain ⟨-, -, -, hrot, hpos⟩ := hstep
  simp [hrot, hpos, mul_comm]

/-- A use of C2 on the scene built from the table of the program, at clock reading 7. -/
theorem renderloop_updates_bodies_witness :
    ShapeOK (planets : List (PlanetConfig ℝ)) (initScene planets).planetMeshes ∧
    ∃ s' ws, renderloop (JSMath.mk Real.sin Real.cos Real.pi) planets 7 (initScene planets)
        = some (s', ws) ∧
      AllBodies₂ planets (initScene planets).planetMeshes s'.planetMeshes
        (fun d sp b b' =>
          b'.rotation.y = b.rotation.y + sp ∧
          b'.position.x = d * Real.sin (b.rotation.y + sp) ∧
          b'.position.z = d * Real.cos (b.rotation.y + sp) ∧
          b'.position.y = b.position.y) :=
  ⟨shapeOK_initScene planets,
    renderloop_updates_bodies (JSMath.mk Real.sin Real.cos Real.pi) planets 7
      (initScene planets) (shapeOK_initScene planets)⟩

/-- C3. Over the real numbers with the real sine and cosine: for every table and every list
of clock readings (so in the state built from the table and in the state after each frame),
every planet and every moon has `position.x ^ 2 + position.z ^ 2 = distance ^ 2`. -/
theorem orbit_radius_fixed (planets : List (PlanetConfig ℝ)) (ts : List ℝ) :
    ∃ s, runFrames (JSMath.mk Real.sin Real.cos Real.pi) planets ts (initScene planets)
        = some s ∧
      AllBodies planets s.planetMeshes
        (fun distance _ body => body.position.x ^ 2 + body.position.z ^ 2 = distance ^ 2) := by
  obtain ⟨s, hrun, -, hP⟩ := runFrames_invariant (JSMath.mk Real.sin Real.cos Real.pi) planets
    (fun _ s => AllBodies planets s.planetMeshes
      (fun distance _ body => body.position.x ^ 2 + body.position.z ^ 2 = distance ^ 2))
    (by
      intro pre s t s' _ hP hf
      refine allBodies_step planets _ _ _ _ _ hf.2.2 hP ?_
      intro d sp b b' hstep _
      obtain ⟨-, -, -, -, hpos⟩ := hstep
      simp only [hpos]
      have := Real.sin_sq_add_cos_sq (b.rotation.y + sp)
      linear_combination d ^ 2 * this)
    ts [] (initScene planets) (shapeOK_initScene planets)
    (allBodies_mono planets _ _ _ (allBodies_initScene planets)
      (by intro d sp b hb; simp [hb.2]))
  exact ⟨s, hrun, hP⟩

/-- A use of C3 on the table of the program after two frames: Mars and its moon Deimos. -/
theorem orbit_radius_fixed_witness :
    ∃ s : Scene ℝ, runFrames (JSMath.mk Real.sin Real.cos Real.pi) planets [0.016, 0.033]
        (initScene planets) = some s ∧
      ∃ m c : Mesh ℝ, s.planetMeshes[3]? = some m ∧ m.position.x ^ 2 + m.position.z ^ 2 = 25 ^ 2 ∧
        m.children[1]? = some c ∧ c.position.x ^ 2 + c.position.z ^ 2 = 3 ^ 2 := by
  obtain ⟨s, hrun, hall⟩ := orbit_radius_fixed planets [0.016, 0.033]
  obtain ⟨m, hm, hr, hmoons⟩ := hall 3 mars (by simp [planets])
  obtain ⟨c, hc, hrc⟩ := hmoons 1 deimos (by simp [mars])
  exact ⟨s, hrun, m, c, hm, by simpa [mars] using hr, hc, by simpa [deimos] using hrc⟩

/-- C4. The sun's spin does not depend on the frame rate.  With `previousTime` and the sun's
`rotation.y` both `0` at the start, for every list of clock readings `ts` followed by one more
reading `t` (no ordering of the readings is needed, so in particular for every non-decreasing
sequence): the loop returns; the last frame sees `previousTime` equal to the reading before
it (`0` when there is none), so its `delta` is `t` minus that reading, and it adds
`delta * degToRad(1) * 20` to the sun's angle; and after it the sun's `rotation.y` is
`t * 20 * (PI / 180)` whatever the number and spacing of the earlier readings. -/
theorem sun_rotation_is_last_reading (M : JSMath α) (planets : List (PlanetConfig α))
    (ts : List α) (t : α) :
    (initScene planets).previousTime = 0 ∧ (initScene planets).sun.rotation.y = 0 ∧
    ∃ s0 s1 ws,
      runFrames M planets ts (initScene planets) = some s0 ∧
      renderloop M planets t s0 = some (s1, ws) ∧
      runFrames M planets (ts ++ [t]) (initScene planets) = some s1 ∧
      s0.previousTime = ts.getLastD 0 ∧
      s1.previousTime = t ∧
      s1.sun.rotation.y = s0.sun.rotation.y + (t - ts.getLastD 0) * degToRad M 1 * 20 ∧
      s1.sun.rotation.y = t * 20 * (M.PI / 180) := by
  have hinit : (initScene planets).previousTime = 0 ∧ (initScene planets).sun.rotation.y = 0 :=
    ⟨rfl, rfl⟩
  obtain ⟨s0, hrun, hshape, hprev, hsun⟩ := runFrames_invariant M planets
    (fun pre s => s.previousTime = pre.getLastD 0 ∧
      s.sun.rotation.y = pre.getLastD 0 * 20 * (M.PI / 180))
    (by
      intro pre s t s' _ hP hf
      obtain ⟨hp, hs⟩ := hP
      obtain ⟨hprev', hsun', -⟩ := hf
      refine ⟨by simp [hprev'], ?_⟩
      simp only [hsun', setRotationY_eq, rotation_mk, hs, hp, degToRad,
        List.getLastD_concat]
      ring)
    ts [] (initScene planets) (shapeOK_initScene planets)
    ⟨by simp [hinit.1], by simp [hinit.2]⟩
  obtain ⟨s1, ws, hr, -, hprev1, hsun1, -⟩ := renderloop_step M planets t s0 hshape
  simp only [List.nil_append] at hprev hsun
  refine ⟨hinit.1, hinit.2, s0, s1, ws, hrun, hr,
    runFrames_append_one M planets t ts _ s0 s1 ws hrun hr, hprev, hprev1, ?_, ?_⟩
  · simp [hsun1, setRotationY_eq, hprev]
  · simp only [hsun1, setRotationY_eq, rotation_mk, hsun, hprev, degToRad]
    ring

/-- A use of C4 on the table of the program: readings 1, 2.5, 2.5 and then 4 leave the sun at
`4 * 20 * (π / 180)`. -/
theorem sun_rotation_is_last_reading_witness :
    ∃ s : Scene ℝ, runFrames (JSMath.mk Real.sin Real.cos Real.pi) planets ([1, 2.5, 2.5] ++ [4])
        (initScene planets) = some s ∧
      s.sun.rotation.y = 4 * 20 * (Real.pi / 180) := by
  obtain ⟨-, -, s0, s1, ws, -, -, hrun, -, -, -, hsun⟩ :=
    sun_rotation_is_last_reading (JSMath.mk Real.sin Real.cos Real.pi) planets [1, 2.5, 2.5] 4
  exact ⟨s1, hrun, hsun⟩

/-- C8, amended.  After at least one frame (readings `t :: ts`), every planet and every moon
has position `(distance * sin rotation.y, 0, distance * cos rotation.y)`; in the scene as
built, before the first frame, every body has angle `0` and position `(distance, 0, 0)`. -/
theorem position_formula_after_first_frame (M : JSMath α) (planets : List (PlanetConfig α))
    (t : α) (ts : List α) :
    (∃ s, runFrames M planets (t :: ts) (initScene planets) = some s ∧
      AllBodies planets s.planetMeshes
        (fun distance _ body =>
          body.position
            = ⟨distance * M.sin body.rotation.y, 0, distance * M.cos body.rotation.y⟩)) ∧
    AllBodies planets (initScene planets).planetMeshes
      (fun distance _ body => body.rotation.y = 0 ∧ body.position = ⟨distance, 0, 0⟩) := by
  constructor
  · obtain ⟨s, hrun, -, hP⟩ := runFrames_invariant M planets
      (fun pre s => AllBodies planets s.planetMeshes
        (fun distance _ body => body.position.y = 0 ∧
          (pre ≠ [] → body.position
            = ⟨distance * M.sin body.rotation.y, 0, distance * M.cos body.rotation.y⟩)))
      (by
        intro pre s t s' _ hP hf
        refine allBodies_step planets _ _ _ _ _ hf.2.2 hP ?_
        intro d sp b b' hstep hb
        obtain ⟨-, -, -, hrot, hpos⟩ := hstep
        simp [hrot, hpos, hb.1, mul_comm])
      (t :: ts) [] (initScene planets) (shapeOK_initScene planets)
      (allBodies_mono planets _ _ _ (allBodies_initScene planets)
        (by intro d sp b hb; simp [hb.2]))
    refine ⟨s, hrun, allBodies_mono planets _ _ _ hP ?_⟩
    intro d sp b hb
    exact hb.2 (by simp)
  · exact allBodies_mono planets _ _ _ (allBodies_initScene planets)
      (by intro d sp b hb; simp [hb.1, hb.2])

/-- A use of the amended C8 on the table of the program after one frame: Venus. -/
theorem position_formula_after_first_frame_witness :
    ∃ s : Scene ℝ, runFrames (JSMath.mk Real.sin Real.cos Real.pi) planets [0.016]
        (initScene planets) = some s ∧
      ∃ m : Mesh ℝ, s.planetMeshes[1]? = some m ∧
        m.position = ⟨15 * Real.sin m.rotation.y, 0, 15 * Real.cos m.rotation.y⟩ := by
  obtain ⟨⟨s, hrun, hall⟩, -⟩ :=
    position_formula_after_first_frame (JSMath.mk Real.sin Real.cos Real.pi) planets 0.016 []
  obtain ⟨m, hm, hpos, -⟩ := hall 1 venus (by simp [planets])
  exact ⟨s, hrun, m, hm, by simpa [venus] using hpos⟩

/-- C8 as stated fails in the scene as built: Mercury's mesh has angle `0` and position
`(10, 0, 0)`, which is not `(10 * sin 0, 0, 10 * cos 0) = (0, 0, 10)`. -/
theorem position_formula_fails_before_first_frame :
    (∃ m : Mesh ℝ, (initScene (planets : List (PlanetConfig ℝ))).planetMeshes[0]? = some m ∧
      m.rotation.y = 0 ∧ m.position = ⟨10, 0, 0⟩ ∧
      m.position ≠ ⟨10 * Real.sin m.rotation.y, 0, 10 * Real.cos m.rotation.y⟩) ∧
    ¬ AllBodies (planets : List (PlanetConfig ℝ)) (initScene planets).planetMeshes
        (fun distance _ body =>
          body.position
            = ⟨distance * Real.sin body.rotation.y, 0, distance * Real.cos body.rotation.y⟩) := by
  obtain ⟨m, hm, ⟨hrot, hpos⟩, -⟩ :=
    allBodies_initScene (planets : List (PlanetConfig ℝ)) 0 mercury (by simp [planets])
  have hne : m.position ≠ ⟨10 * Real.sin m.rotation.y, 0, 10 * Real.cos m.rotation.y⟩ := by
    rw [hpos, hrot]
    simp [mercury]
  refine ⟨⟨m, hm, by simp [hrot], by simpa [mercury] using hpos, hne⟩, ?_⟩
  intro hall
  obtain ⟨m', hm', hpos', -⟩ := hall 0 mercury (by simp [planets])
  rw [hm] at hm'
  simp only [Option.some.injEq] at hm'
  subst hm'
  exact hne (by simpa [mercury] using hpos')

/-- C9, amended.  For every table and every list of clock readings, in the scene as built
(`ts = []`) and after each frame: in exact arithmetic (any field of numbers) every planet and
every moon whose configured distance is `0` has position `(0, 0, 0)`, whatever its speed and
accumulated angle; and on JavaScript numbers, with any finite-valued `Math.sin` and `Math.cos`,
every planet and every moon whose configured distance is `0` has position `(0, 0, 0)` whenever
its accumulated angle `rotation.y` is finite. -/
theorem zero_distance_at_origin (M : JSMath α) (planets : List (PlanetConfig α))
    (ts : List α) (sinF cosF : Int → Int) (planets64 : List (PlanetConfig Binary64))
    (ts64 : List Binary64) :
    (∃ s, runFrames M planets ts (initScene planets) = some s ∧
      AllBodies planets s.planetMeshes
        (fun distance _ body => distance = 0 → body.position = ⟨0, 0, 0⟩)) ∧
    (∃ s, runFrames (jsMath64 sinF cosF) planets64 ts64 (initScene planets64) = some s ∧
      AllBodies planets64 s.planetMeshes
        (fun distance _ body => distance = 0 → (∃ k, body.rotation.y = .finite k) →
          body.position = ⟨0, 0, 0⟩)) := by
  constructor
  · obtain ⟨s, hrun, -, hP⟩ := runFrames_invariant M planets
      (fun _ s => AllBodies planets s.planetMeshes
        (fun distance _ body => body.position.y = 0 ∧
          (distance = 0 → body.position = ⟨0, 0, 0⟩)))
      (by
        intro pre s t s' _ hP hf
        refine allBodies_step planets _ _ _ _ _ hf.2.2 hP ?_
        intro d sp b b' hstep hb
        obtain ⟨-, -, -, -, hpos⟩ := hstep
        refine ⟨by simp [hpos, hb.1], ?_⟩
        intro hd
        simp [hpos, hb.1, hd])
      ts [] (initScene planets) (shapeOK_initScene planets)
      (allBodies_mono planets _ _ _ (allBodies_initScene planets)
        (by
          intro d sp b hb
          refine ⟨by simp [hb.2], ?_⟩
          intro hd
          simp [hb.2, hd]))
    exact ⟨s, hrun, allBodies_mono planets _ _ _ hP (fun d sp b hb => hb.2)⟩
  · obtain ⟨s, hrun, -, hP⟩ := runFrames_invariant (jsMath64 sinF cosF) planets64
      (fun _ s => AllBodies planets64 s.planetMeshes
        (fun distance _ body => body.position.y = 0 ∧
          (distance = 0 → (∃ k, body.rotation.y = .finite k) →
            body.position = ⟨0, 0, 0⟩)))
      (by
        intro pre s t s' _ hP hf
        refine allBodies_step planets64 _ _ _ _ _ hf.2.2 hP ?_
        intro d sp b b' hstep hb
        obtain ⟨-, -, -, hrot, hpos⟩ := hstep
        refine ⟨by simp [hpos, hb.1], ?_⟩
        intro hd hfin
        obtain ⟨k, hk⟩ := hfin
        simp only [hrot] at hk
        simp only [hpos, hb.1, hd, hk, jsMath64, finite_mul_zero])
      ts64 [] (initScene planets64) (shapeOK_initScene planets64)
      (allBodies_mono planets64 _ _ _ (allBodies_initScene planets64)
        (by
          intro d sp b hb
          refine ⟨by simp [hb.2], ?_⟩
          intro hd _
          simp [hb.2, hd]))
    exact ⟨s, hrun, allBodies_mono planets64 _ _ _ hP (fun d sp b hb => hb.2)⟩

/-- A use of the amended C9: in exact arithmetic a table of one planet at distance `0` with one
moon at distance `0`, after three frames; on JavaScript numbers the body at distance `0` with
speed `1e308`, after one frame, when its angle is the finite number `1e308`. -/
theorem zero_distance_at_origin_witness :
    (∃ s : Scene ℝ, runFrames (JSMath.mk Real.sin Real.cos Real.pi)
        [{ name := "Centre", radius := 1, distance := 0, speed := 0.01,
           material := earthMaterial,
           moons := [{ name := "Core", radius := 0.3, distance := 0, speed := 0.5,
                       color := none }] }]
        [0.016, 0.033, 0.05]
        (initScene
          [{ name := "Centre", radius := 1, distance := 0, speed := 0.01,
             material := earthMaterial,
             moons := [{ name := "Core", radius := 0.3, distance := 0, speed := 0.5,
                         color := none }] }]) = some s ∧
      ∃ m c : Mesh ℝ, s.planetMeshes[0]? = some m ∧ m.position = ⟨0, 0, 0⟩ ∧
        m.children[0]? = some c ∧ c.position = ⟨0, 0, 0⟩) ∧
    (∃ s : Scene Binary64, runFrames (jsMath64 (fun _ => 0) (fun _ => 0)) fastCentre [0.016]
        (initScene fastCentre) = some s ∧
      ∃ m : Mesh Binary64, s.planetMeshes[0]? = some m ∧ m.rotation.y = 1e308 ∧
        m.position = ⟨0, 0, 0⟩) := by
  obtain ⟨⟨s, hrun, hall⟩, ⟨s64, hrun64, hall64⟩⟩ :=
    zero_distance_at_origin (JSMath.mk Real.sin Real.cos Real.pi)
      [{ name := "Centre", radius := 1, distance := 0, speed := 0.01,
         material := earthMaterial,
         moons := [{ name := "Core", radius := 0.3, distance := 0, speed := 0.5,
                     color := none }] }]
      [0.016, 0.033, 0.05] (fun _ => 0) (fun _ => 0) fastCentre [0.016]
  constructor
  · obtain ⟨m, hm, hpos, hmoons⟩ := hall 0 _ (by simp; rfl)
    obtain ⟨c, hc, hposc⟩ := hmoons 0 _ (by simp; rfl)
    exact ⟨s, hrun, m, c, hm, hpos rfl, hc, hposc rfl⟩
  · obtain ⟨s', hrun', hall'⟩ :=
      runFrames_closed_form (jsMath64 (fun _ => 0) (fun _ => 0)) fastCentre [0.016]
    rw [hrun64] at hrun'
    simp only [Option.some.injEq] at hrun'
    subst hrun'
    obtain ⟨m, hm, hpos, -⟩ := hall64 0 _ (by simp [fastCentre]; rfl)
    obtain ⟨m', hm', ⟨hrot, -⟩, -⟩ := hall' 0 _ (by simp [fastCentre]; rfl)
    rw [hm] at hm'
    simp only [Option.some.injEq] at hm'
    subst hm'
    have hval : m.rotation.y = 1e308 := by
      rw [hrot]
      decide!
    have hfin : ∃ k, (1e308 : Binary64) = .finite k := by
      cases h : (1e308 : Binary64) with
      | finite k => exact ⟨k, rfl⟩
      | inf b => exact absurd h (by cases b <;> decide!)
      | nan => exact absurd h (by decide!)
    obtain ⟨k, hk⟩ := hfin
    exact ⟨s64, hrun64, m, hm, hval, hpos rfl ⟨k, by rw [hval, hk]⟩⟩

/-- C9 as stated fails on JavaScript numbers: the body at distance `0` with speed `1e308` has
after two frames, for every finite-valued `Math.sin` and `Math.cos` and any two clock readings,
the angle `+∞` (`1e308 + 1e308` overflows) and the position `(NaN, 0, NaN)`, since the sine and
cosine of `+∞` are NaN and `NaN * 0` is NaN. -/
theorem zero_distance_nan_in_binary64 :
    (∀ (sinF cosF : Int → Int) (ts : List Binary64), ts.length = 2 →
      ∃ (s : Scene Binary64) (m : Mesh Binary64),
        runFrames (jsMath64 sinF cosF) fastCentre ts (initScene fastCentre) = some s ∧
        s.planetMeshes[0]? = some m ∧
        m.rotation.y = .inf false ∧
        m.position = ⟨.nan, 0, .nan⟩ ∧ m.position ≠ ⟨0, 0, 0⟩) ∧
    ((0 : Binary64) + 1e308) + 1e308 = .inf false ∧
    Binary64.nan * (0 : Binary64) = .nan := by
  refine ⟨?_, by decide!, by decide!⟩
  intro sinF cosF ts hn
  obtain ⟨s, hrun, hall⟩ := runFrames_closed_form (jsMath64 sinF cosF) fastCentre ts
  obtain ⟨m, hm, ⟨hrot, hy, -, hpos⟩, -⟩ := hall 0 _ (by simp [fastCentre]; rfl)
  have hne : ts ≠ [] := by
    intro h0
    rw [h0] at hn
    simp at hn
  have hval : m.rotation.y = .inf false := by
    rw [hrot, hn]
    exact huge_summed
  obtain ⟨hx, hz⟩ := hpos hne
  rw [hval] at hx hz
  have hposeq : m.position = ⟨.nan, 0, .nan⟩ := by
    have hx' : m.position.x = .nan := by rw [hx]; exact nan_mul _
    have hz' : m.position.z = .nan := by rw [hz]; exact nan_mul _
    cases hmp : m.position with
    | mk x y z =>
      rw [hmp] at hx' hz' hy
      simp only at hx' hz' hy
      rw [hx', hy, hz']
  refine ⟨s, m, hrun, hm, hval, hposeq, ?_⟩
  rw [hposeq]
  intro h
  have := congrArg Vector3.x h
  exact absurd this (by decide)

/-- C5. One invocation of `renderloop`, on any state whose meshes have the shape of the table,
returns, and the objects and components it writes are, in order: the sun's rotation, then for
each planet in list order its rotation and position followed, for each of its children in
child order, by the child's rotation and position, all before the next planet.  In
particular every write to a moon comes later in the sequence than every write to its parent
planet. -/
theorem writes_parent_before_child (M : JSMath α) (planets : List (PlanetConfig α)) (t : α)
    (s : Scene α) (h : ShapeOK planets s.planetMeshes) :
    ∃ s' ws, renderloop M planets t s = some (s', ws) ∧
      (ws.map fun w => (w.target, w.component)) = frameLayout s.planetMeshes ∧
      ∀ (a b : Nat) (wa wb : Write α) (i j : Nat),
        ws[a]? = some wa → ws[b]? = some wb →
        wa.target = .planet i → wb.target = .moon i j → a < b := by
  obtain ⟨s', ws, hr, -, -⟩ := renderloop_step M planets t s h
  have hlay := renderloop_writes M planets t s s' ws hr
  refine ⟨s', ws, hr, hlay, ?_⟩
  intro a b wa wb i j ha hb hta htb
  have hsorted : ws.Pairwise (fun x y => x.target.notAfter y.target) := by
    have := frameLayout_sorted s.planetMeshes
    rw [← hlay, List.pairwise_map] at this
    exact this
  obtain ⟨ha', hwa⟩ := List.getElem?_eq_some.mp ha
  obtain ⟨hb', hwb⟩ := List.getElem?_eq_some.mp hb
  by_contra hab
  have hba : b ≤ a := Nat.le_of_not_lt hab
  rcases Nat.lt_or_eq_of_le hba with hlt | heq
  · have := List.pairwise_iff_getElem.mp hsorted b a hb' ha' hlt
    rw [hwa, hwb, hta, htb] at this
    simp only [Target.notAfter, rank_planet, rank_moon] at this
    omega
  · subst heq
    rw [ha] at hb
    simp only [Option.some.injEq] at hb
    subst hb
    rw [hta] at htb
    exact Target.noConfusion htb

/-- A use of C5 on the scene built from the table of the program: the sequence of written
objects and components of a frame, spelled out. -/
theorem writes_parent_before_child_witness :
    ShapeOK (planets : List (PlanetConfig ℝ)) (initScene planets).planetMeshes ∧
    ∃ s' ws, renderloop (JSMath.mk Real.sin Real.cos Real.pi) planets 0.016 (initScene planets)
        = some (s', ws) ∧
      (ws.map fun w => (w.target, w.component))
        = [(.sun, .rotationY),
           (.planet 0, .rotationY), (.planet 0, .positionX), (.planet 0, .positionZ),
           (.planet 1, .rotationY), (.planet 1, .positionX), (.planet 1, .positionZ),
           (.planet 2, .rotationY), (.planet 2, .positionX), (.planet 2, .positionZ),
           (.moon 2 0, .rotationY), (.moon 2 0, .positionX), (.moon 2 0, .positionZ),
           (.planet 3, .rotationY), (.planet 3, .positionX), (.planet 3, .positionZ),
           (.moon 3 0, .rotationY), (.moon 3 0, .positionX), (.moon 3 0, .positionZ),
           (.moon 3 1, .rotationY), (.moon 3 1, .positionX), (.moon 3 1, .positionZ)] := by
  refine ⟨shapeOK_initScene planets, ?_⟩
  obtain ⟨s', ws, hr, hlay, -⟩ :=
    writes_parent_before_child (JSMath.mk Real.sin Real.cos Real.pi) planets 0.016
      (initScene planets) (shapeOK_initScene planets)
  refine ⟨s', ws, hr, ?_⟩
  rw [hlay]
  rfl

/-- C6. Building the scene from the table of the program gives exactly four planet meshes,
made in order from the entries Mercury, Venus, Earth and Mars; they have 0, 0, 1 and 2
children (Earth's Moon; Mars's Phobos and Deimos), three moons in all; and all seven meshes
are distinct objects, so no moon is a child of two planets. -/
theorem hierarchy_of_table :
    (initScene (planets : List (PlanetConfig α))).planetMeshes
        = [createPlanet mercury 1,
           createPlanet venus 2,
           (createPlanet earth 3).add (createMoon moon 4),
           ((createPlanet mars 5).add (createMoon phobos 6)).add (createMoon deimos 7)] ∧
      (initScene (planets : List (PlanetConfig α))).planetMeshes.length = 4 ∧
      (initScene (planets : List (PlanetConfig α))).planetMeshes.map
          (fun m => m.children.length) = [0, 0, 1, 2] ∧
      ((initScene (planets : List (PlanetConfig α))).planetMeshes.flatMap
          Mesh.children).length = 3 ∧
      ((initScene (planets : List (PlanetConfig α))).planetMeshes.flatMap
          (fun m => m.children.map Mesh.id)).Nodup ∧
      ((initScene (planets : List (PlanetConfig α))).planetMeshes.map Mesh.id ++
        (initScene (planets : List (PlanetConfig α))).planetMeshes.flatMap
          (fun m => m.children.map Mesh.id)).Nodup := by
  have hms : (initScene (planets : List (PlanetConfig α))).planetMeshes
      = [createPlanet mercury 1,
         createPlanet venus 2,
         (createPlanet earth 3).add (createMoon moon 4),
         ((createPlanet mars 5).add (createMoon phobos 6)).add (createMoon deimos 7)] := rfl
  rw [hms]
  refine ⟨rfl, rfl, ?_, ?_, ?_, ?_⟩ <;>
    simp [createPlanet_eq, createMoon_eq, add_eq]

/-- C7, amended.  A planet of the table with distance 10 and speed 0.01 (the Mercury entry),
starting at angle 0, has after exactly 100 frames: in exact real arithmetic `rotation.y = 1`
and position `(10 * sin 1, 0, 10 * cos 1)`, whose `x` is within 0.001 of 8.415 and whose `z`
is within 0.001 of 5.403; on JavaScript numbers `rotation.y = 1.0000000000000007` and position
`(Math.sin(rotation.y) * 10, 0, Math.cos(rotation.y) * 10)`, whose `x` is within 0.001 of 8.415
and whose `z` is within 0.001 of 5.403 provided `Math.sin(rotation.y)` and
`Math.cos(rotation.y)` are finite and within 0.00005 of the sine and cosine of the number
`rotation.y` stands for. -/
theorem body_after_100_frames (planets : List (PlanetConfig ℝ)) (ts : List ℝ) (i : Nat)
    (p : PlanetConfig ℝ) (hp : planets[i]? = some p) (hd : p.distance = 10)
    (hs : p.speed = 0.01) (hn : ts.length = 100)
    (M64 : JSMath Binary64) (planets64 : List (PlanetConfig Binary64)) (ts64 : List Binary64)
    (i64 : Nat) (p64 : PlanetConfig Binary64) (hp64 : planets64[i64]? = some p64)
    (hd64 : p64.distance = 10) (hs64 : p64.speed = 0.01) (hn64 : ts64.length = 100) :
    (∃ s m, runFrames (JSMath.mk Real.sin Real.cos Real.pi) planets ts (initScene planets)
        = some s ∧
      s.planetMeshes[i]? = some m ∧
      m.rotation.y = 1 ∧
      m.position = ⟨10 * Real.sin 1, 0, 10 * Real.cos 1⟩ ∧
      |m.position.x - 8.415| < 0.001 ∧ |m.position.z - 5.403| < 0.001) ∧
    (∃ s m, runFrames M64 planets64 ts64 (initScene planets64) = some s ∧
      s.planetMeshes[i64]? = some m ∧
      m.rotation.y = 1.0000000000000007 ∧
      m.position = ⟨M64.sin m.rotation.y * 10, 0, M64.cos m.rotation.y * 10⟩ ∧
      ((∃ k, M64.sin m.rotation.y = .finite k) →
        |(((M64.sin m.rotation.y).toRat : ℚ) : ℝ)
          - Real.sin ((m.rotation.y.toRat : ℚ) : ℝ)| ≤ 0.00005 →
        (∃ k, M64.cos m.rotation.y = .finite k) →
        |(((M64.cos m.rotation.y).toRat : ℚ) : ℝ)
          - Real.cos ((m.rotation.y.toRat : ℚ) : ℝ)| ≤ 0.00005 →
        (∃ kx kz, m.position = ⟨.finite kx, 0, .finite kz⟩) ∧
          |((m.position.x.toRat : ℚ) : ℝ) - 8.415| < 0.001 ∧
          |((m.position.z.toRat : ℚ) : ℝ) - 5.403| < 0.001)) := by
  constructor
  · obtain ⟨s, hrun, -, hP⟩ :=
      runFrames_invariant (JSMath.mk Real.sin Real.cos Real.pi) planets
      (fun pre s => AllBodies planets s.planetMeshes
        (fun distance speed body => body.rotation.y = (pre.length : ℝ) * speed ∧
          body.position.y = 0 ∧
          (pre ≠ [] → body.position
            = ⟨distance * Real.sin body.rotation.y, 0, distance * Real.cos body.rotation.y⟩)))
      (by
        intro pre s t s' _ hP hf
        refine allBodies_step planets _ _ _ _ _ hf.2.2 hP ?_
        intro d sp b b' hstep hb
        obtain ⟨-, -, -, hrot, hpos⟩ := hstep
        refine ⟨?_, by simp [hpos, hb.2.1], ?_⟩
        · simp only [hrot, hb.1, List.length_append, List.length_singleton, Nat.cast_add,
            Nat.cast_one]
          ring
        · intro _
          simp [hrot, hpos, hb.2.1, mul_comm])
      ts [] (initScene planets) (shapeOK_initScene planets)
      (allBodies_mono planets _ _ _ (allBodies_initScene planets)
        (by intro d sp b hb; simp [hb.1, hb.2]))
    obtain ⟨m, hm, ⟨hrot, -, hpos⟩, -⟩ := hP i p hp
    have hne : ([] : List ℝ) ++ ts ≠ [] := by
      intro h0
      have := congrArg List.length h0
      simp [hn] at this
    have hrot1 : m.rotation.y = 1 := by
      rw [hrot]
      simp only [List.nil_append, hn, hs]
      norm_num
    have hpos1 := hpos hne
    rw [hrot1, hd] at hpos1
    refine ⟨s, m, hrun, hm, hrot1, hpos1, ?_, ?_⟩
    · rw [hpos1, abs_lt]
      have := sin_one_bounds
      constructor <;> norm_num at this ⊢ <;> linarith [this.1, this.2]
    · rw [hpos1, abs_lt]
      have := cos_one_bounds
      constructor <;> norm_num at this ⊢ <;> linarith [this.1, this.2]
  · obtain ⟨s, hrun, hall⟩ := runFrames_closed_form M64 planets64 ts64
    obtain ⟨m, hm, ⟨hrot, hy, -, hpos⟩, -⟩ := hall i64 p64 hp64
    have hne : ts64 ≠ [] := by
      intro h0
      rw [h0] at hn64
      simp at hn64
    have hval : m.rotation.y = 1.0000000000000007 := by
      rw [hrot, hn64, hs64]
      exact hundredth_summed
    obtain ⟨hx, hz⟩ := hpos hne
    rw [hd64] at hx hz
    have hposeq : m.position = ⟨M64.sin m.rotation.y * 10, 0, M64.cos m.rotation.y * 10⟩ := by
      cases hmp : m.position with
      | mk x y z =>
        rw [hmp] at hx hz hy
        simp only at hx hz hy
        rw [hx, hy, hz]
    refine ⟨s, m, hrun, hm, hval, hposeq, ?_⟩
    intro hsf hsa hcf hca
    rw [hval, theta_toRat] at hsa hca
    have hsr := sin_theta_near
    have hcr := cos_theta_near
    rw [hval] at hsf hcf
    obtain ⟨⟨kx, hkx⟩, hxn⟩ := times_ten_near _ _ (4241 / 5040) hsf hsa hsr
      (by norm_num) (by norm_num)
    obtain ⟨⟨kz, hkz⟩, hzn⟩ := times_ten_near _ _ (21785 / 40320) hcf hca hcr
      (by norm_num) (by norm_num)
    have hpx : m.position.x = M64.sin 1.0000000000000007 * 10 := by
      rw [hposeq, hval]
    have hpz : m.position.z = M64.cos 1.0000000000000007 * 10 := by
      rw [hposeq, hval]
    refine ⟨⟨kx, kz, ?_⟩, ?_, ?_⟩
    · rw [hposeq, hval, hkx, hkz]
    · rw [hpx, abs_lt]
      rw [abs_le] at hxn
      constructor <;> norm_num at hxn ⊢ <;> linarith [hxn.1, hxn.2]
    · rw [hpz, abs_lt]
      rw [abs_le] at hzn
      constructor <;> norm_num at hzn ⊢ <;> linarith [hzn.1, hzn.2]

/-- A use of the amended C7 on the table of the program: Mercury (entry 0), with 100 frames at
the readings 0, 0.016, 0.032, ...; on JavaScript numbers with `Math.sin` and `Math.cos`
returning 0.8414709848078968 and 0.5403023058681392, the position is
`(8.414709848078969, 0, 5.403023058681392)`. -/
theorem body_after_100_frames_witness :
    (planets : List (PlanetConfig ℝ))[0]? = some (mercury : PlanetConfig ℝ) ∧
    (mercury : PlanetConfig ℝ).distance = 10 ∧ (mercury : PlanetConfig ℝ).speed = 0.01 ∧
    (List.iterate (fun t : ℝ => t + 0.016) 0 100).length = 100 ∧
    (planets : List (PlanetConfig Binary64))[0]? = some (mercury : PlanetConfig Binary64) ∧
    (mercury : PlanetConfig Binary64).distance = 10 ∧
    (mercury : PlanetConfig Binary64).speed = 0.01 ∧
    (List.iterate (fun t : Binary64 => t + 0.016) 0 100).length = 100 ∧
    (∃ (s : Scene ℝ) (m : Mesh ℝ), runFrames (JSMath.mk Real.sin Real.cos Real.pi) planets
        (List.iterate (fun t : ℝ => t + 0.016) 0 100) (initScene planets) = some s ∧
      s.planetMeshes[0]? = some m ∧
      m.rotation.y = 1 ∧
      m.position = ⟨10 * Real.sin 1, 0, 10 * Real.cos 1⟩ ∧
      |m.position.x - 8.415| < 0.001 ∧ |m.position.z - 5.403| < 0.001) ∧
    (∃ (s : Scene Binary64) (m : Mesh Binary64),
      runFrames
        (JSMath.mk (fun _ => 0.8414709848078968) (fun _ => 0.5403023058681392)
          3.141592653589793)
        planets (List.iterate (fun t : Binary64 => t + 0.016) 0 100) (initScene planets)
        = some s ∧
      s.planetMeshes[0]? = some m ∧
      m.rotation.y = 1.0000000000000007 ∧
      m.position = ⟨8.414709848078969, 0, 5.403023058681392⟩ ∧
      |((m.position.x.toRat : ℚ) : ℝ) - 8.415| < 0.001 ∧
      |((m.position.z.toRat : ℚ) : ℝ) - 5.403| < 0.001) := by
  obtain ⟨hexact, s, m, hrun, hm, hval, hpos, htol⟩ :=
    body_after_100_frames planets (List.iterate (fun t : ℝ => t + 0.016) 0 100) 0 mercury
      (by simp [planets]) rfl rfl (List.length_iterate _ _ _)
      (JSMath.mk (fun _ => 0.8414709848078968) (fun _ => 0.5403023058681392)
        3.141592653589793)
      planets (List.iterate (fun t : Binary64 => t + 0.016) 0 100) 0 mercury
      (by simp [planets]) rfl rfl (List.length_iterate _ _ _)
  refine ⟨by simp [planets], rfl, rfl, List.length_iterate _ _ _,
    by simp [planets], rfl, rfl, List.length_iterate _ _ _, hexact, s, m, hrun, hm, hval, ?_, ?_⟩
  · rw [hpos]
    simp only [position_values.1, position_values.2]
  · have hsa : |((Binary64.toRat 0.8414709848078968 : ℚ) : ℝ)
        - Real.sin ((m.rotation.y.toRat : ℚ) : ℝ)| ≤ 0.00005 := by
      rw [hval, theta_toRat, sin_value_toRat]
      have h1 := sin_theta_near
      rw [abs_le] at h1 ⊢
      constructor <;> norm_num at h1 ⊢ <;> linarith [h1.1, h1.2]
    have hca : |((Binary64.toRat 0.5403023058681392 : ℚ) : ℝ)
        - Real.cos ((m.rotation.y.toRat : ℚ) : ℝ)| ≤ 0.00005 := by
      rw [hval, theta_toRat, cos_value_toRat]
      have h1 := cos_theta_near
      rw [abs_le] at h1 ⊢
      constructor <;> norm_num at h1 ⊢ <;> linarith [h1.1, h1.2]
    exact (htol ⟨_, sin_value_eq⟩ hsa ⟨_, cos_value_eq⟩ hca).2

/-- C7 as stated fails on JavaScript numbers: on the table of the program, for every
`Math.sin`, `Math.cos` and `Math.PI` and every 100 clock readings, Mercury (distance 10, speed
0.01) has after the 100 frames `rotation.y = 1.0000000000000007`, which is not `1.0`. -/
theorem rotation_not_one_in_binary64 :
    (∀ (M : JSMath Binary64) (ts : List Binary64), ts.length = 100 →
      ∃ (s : Scene Binary64) (m : Mesh Binary64),
        runFrames M planets ts (initScene planets) = some s ∧
        s.planetMeshes[0]? = some m ∧
        m.rotation.y = 1.0000000000000007 ∧ m.rotation.y ≠ 1) ∧
    (mercury : PlanetConfig Binary64).distance = 10 ∧
    (mercury : PlanetConfig Binary64).speed = 0.01 ∧
    (fun a : Binary64 => a + 0.01)^[100] 0 ≠ 1 := by
  refine ⟨?_, rfl, rfl, by rw [hundredth_summed]; exact hundredth_sum_ne_one⟩
  intro M ts hn
  obtain ⟨s, hrun, hall⟩ := runFrames_closed_form M planets ts
  obtain ⟨m, hm, ⟨hrot, -⟩, -⟩ := hall 0 mercury (by simp [planets])
  have hval : m.rotation.y = 1.0000000000000007 := by
    rw [hrot, hn]
    exact hundredth_summed
  exact ⟨s, m, hrun, hm, hval, by rw [hval]; exact hundredth_sum_ne_one⟩

/-- C10. The lookups by index in `renderloop` never miss.  For every table and every list of
clock readings: the meshes built from the table have the shape of the table (as many meshes
as planets, and under mesh `i` as many children as `planets[i].moons`), mesh `i` being the one
`createPlanet` made from `planets[i]` and its child `j` the one `createMoon` made from
`planets[i].moons[j]`; the loop returns after the frames; the state it reaches still has that
shape, with at every place the object created there (same identity, material and scale); so
for every mesh `i` and child `j` a frame visits, `planets[i]` and `planets[i].moons[j]` are
defined; and the next frame returns whatever the clock reads. -/
theorem lookups_never_miss (M : JSMath α) (planets : List (PlanetConfig α)) (ts : List α) :
    ShapeOK planets (initScene planets).planetMeshes ∧
    (∀ (i : Nat) (p : PlanetConfig α), planets[i]? = some p →
      ∃ m id, (initScene planets).planetMeshes[i]? = some m ∧
        m.setChildren [] = createPlanet p id ∧
        ∀ (j : Nat) (q : MoonConfig α), p.moons[j]? = some q →
          ∃ id', m.children[j]? = some (createMoon q id')) ∧
    ∃ s, runFrames M planets ts (initScene planets) = some s ∧
      ShapeOK planets s.planetMeshes ∧
      AllBodies₂ planets (initScene planets).planetMeshes s.planetMeshes
        (fun _ _ b b' => b'.id = b.id ∧ b'.material = b.material ∧ b'.scale = b.scale) ∧
      (∀ (i : Nat) (m : Mesh α), s.planetMeshes[i]? = some m →
        ∃ p, planets[i]? = some p ∧
          ∀ (j : Nat) (c : Mesh α), m.children[j]? = some c → ∃ q, p.moons[j]? = some q) ∧
      ∀ t, ∃ r, renderloop M planets t s = some r := by
  refine ⟨shapeOK_initScene planets, ?_, ?_⟩
  · intro i p hp
    obtain ⟨m, id, hm, hc, -, hmoons⟩ := (buildPlanetMeshes_spec planets 1).2 i p hp
    exact ⟨m, id, hm, hc, hmoons⟩
  · obtain ⟨s, hrun, hshape, hP⟩ := runFrames_invariant M planets
      (fun _ s => AllBodies₂ planets (initScene planets).planetMeshes s.planetMeshes
        (fun _ _ b b' => b'.id = b.id ∧ b'.material = b.material ∧ b'.scale = b.scale))
      (by
        intro pre s t s' _ hP hf
        refine allBodies₂_step planets _ _ _ _ _ _ hf.2.2 hP ?_
        intro d sp a b b' hstep hab
        obtain ⟨h1, h2, h3, -, -⟩ := hstep
        exact ⟨h1.trans hab.1, h2.trans hab.2.1, h3.trans hab.2.2⟩)
      ts [] (initScene planets) (shapeOK_initScene planets)
      (by
        intro i p hp
        obtain ⟨m, hm, -, hmoons⟩ := allBodies_initScene planets i p hp
        refine ⟨m, m, hm, hm, ⟨rfl, rfl, rfl⟩, ?_⟩
        intro j q hq
        obtain ⟨c, hc, -⟩ := hmoons j q hq
        exact ⟨c, c, hc, hc, rfl, rfl, rfl⟩)
    refine ⟨s, hrun, hshape, hP, ?_, ?_⟩
    · intro i m hm
      obtain ⟨hlen, hch⟩ := hshape
      have hi : i < planets.length := by
        rw [← hlen]; exact (List.getElem?_eq_some.mp hm).1
      have hp : planets[i]? = some planets[i] := List.getElem?_eq_getElem hi
      refine ⟨planets[i], hp, ?_⟩
      intro j c hc
      have hj : j < planets[i].moons.length := by
        rw [← hch i _ m hp hm]; exact (List.getElem?_eq_some.mp hc).1
      exact ⟨_, List.getElem?_eq_getElem hj⟩
    · intro t
      obtain ⟨s', ws, hr, -⟩ := renderloop_step M planets t s hshape
      exact ⟨_, hr⟩

/-- A use of C10 on the table of the program after two frames: the four meshes are still
there, Mars's mesh still has two children, and a third frame returns. -/
theorem lookups_never_miss_witness :
    ∃ s : Scene ℝ, runFrames (JSMath.mk Real.sin Real.cos Real.pi) planets [0.016, 0.033]
        (initScene planets) = some s ∧
      s.planetMeshes.length = 4 ∧
      (∃ m : Mesh ℝ, s.planetMeshes[3]? = some m ∧ m.children.length = 2) ∧
      ∃ r, renderloop (JSMath.mk Real.sin Real.cos Real.pi) planets 0.05 s = some r := by
  obtain ⟨-, -, s, hrun, hshape, hsame, -, hnext⟩ :=
    lookups_never_miss (JSMath.mk Real.sin Real.cos Real.pi) planets [0.016, 0.033]
  obtain ⟨m, m', -, hm', -, -⟩ := hsame 3 mars (by simp [planets])
  refine ⟨s, hrun, by simpa [planets] using hshape.1, ⟨m', hm', ?_⟩, hnext 0.05⟩
  simpa [mars] using hshape.2 3 mars m' (by simp [planets]) hm'

end Claims

end SolarSystem
